/-
Verification of the OptiSched schedule-generation core.

Shallow embedding of src/controllers/scheduleGeneration.controller.ts:
the session-rule builder, the faculty scorer and ranking, the availability
oracle, the paired-session placement engine, the generate pipeline and the
save (persistence) endpoint, together with theorems settling the frozen
claims about them.

Modelling conventions:
  - JS strings are Lean Strings; the JS string operations used by the
    source (toLowerCase, trim, split, includes, startsWith, padStart,
    localeCompare) are modelled by executable character-list functions
    defined below, so that everything reduces inside the kernel.
  - JS `Map` values are association lists with first-binding-wins lookup
    (equals Map get/set semantics); JS `Set`s of packed strings
    "a|b|c|d" are lists of structures holding the same components
    (the packing is injective for the field values that occur).
  - `number` fields holding unit counts, minutes and scores are Nat
    (they are non-negative integers in the data model); scores are Int
    (the disqualifier is -1000).  Durations that the source keeps in
    hours (1, 1.5) are kept in minutes (60, 90) to stay in Nat.
  - Nullable / optional JS fields are Option; `x || d` on strings and
    numbers is modelled by jsOrStr / jsOrNat (empty string and 0 are
    falsy).  JSON-array fields are modelled post-decode as
    Option (List String); the Array.isArray branch of parseJsonArray is then
    the identity and its falsy branch returns [].
-/
import Mathlib

set_option maxHeartbeats 1000000

/-! ## Character-level models of the JS string operations -/

/-- Character of a decimal digit, model of JS number-to-string digits. -/
def digitChar (n : Nat) : Char := Char.ofNat (48 + n)

/-- ASCII lower-casing of one character (model of String.toLowerCase). -/
def chLower (c : Char) : Char :=
  if 65 ≤ c.toNat ∧ c.toNat ≤ 90 then Char.ofNat (c.toNat + 32) else c

/-- ASCII upper-casing of one character (model of String.toUpperCase). -/
def chUpper (c : Char) : Char :=
  if 97 ≤ c.toNat ∧ c.toNat ≤ 122 then Char.ofNat (c.toNat - 32) else c

/-- Model of JS String.prototype.toLowerCase (ASCII fragment). -/
def lowerStr (s : String) : String := ⟨s.data.map chLower⟩

/-- Model of JS String.prototype.toUpperCase (ASCII fragment). -/
def upperStr (s : String) : String := ⟨s.data.map chUpper⟩

/-- JS whitespace for trim. -/
def isWsChar (c : Char) : Bool := c = ' ' ∨ c = '\t' ∨ c = '\n' ∨ c = '\r'

/-- Model of JS String.prototype.trim. -/
def trimStr (s : String) : String :=
  ⟨((s.data.dropWhile isWsChar).reverse.dropWhile isWsChar).reverse⟩

/-- toLowerCase().trim() as used throughout the scorer. -/
def lowerTrim (s : String) : String := trimStr (lowerStr s)

/-- Split a character list at every occurrence of a separator character
(model of JS String.prototype.split with a one-character separator). -/
def splitChar (c : Char) : List Char → List (List Char)
  | [] => [[]]
  | x :: xs =>
    let rest := splitChar c xs
    if x = c then [] :: rest
    else
      match rest with
      | [] => [[x]]
      | r :: rs => (x :: r) :: rs

/-- Decimal digits to Nat (model of JS Number() on the digit strings the
source feeds it, i.e. the components of "HH:MM"). -/
def digitsToNat (l : List Char) : Nat :=
  l.foldl (fun acc c => acc * 10 + (c.toNat - 48)) 0

/-- Does list `l` start with list `p`? -/
def listStartsWith : List Char → List Char → Bool
  | _, [] => true
  | [], _ :: _ => false
  | x :: xs, y :: ys => x = y && listStartsWith xs ys

/-- Does list `l` contain `p` as a contiguous sublist? -/
def listHasSub : List Char → List Char → Bool
  | [], p => p.isEmpty
  | x :: xs, p => listStartsWith (x :: xs) p || listHasSub xs p

/-- Model of JS String.prototype.includes. -/
def containsSub (s sub : String) : Bool := listHasSub s.data sub.data

/-- Model of JS String.prototype.startsWith. -/
def startsWithStr (s p : String) : Bool := listStartsWith s.data p.data

/-- Drop the first n characters (used to model item.replace of a checked
leading marker such as "start:"). -/
def dropStr (n : Nat) (s : String) : String := ⟨s.data.drop n⟩

/-- Lexicographic three-way comparison on character lists, the model of
the sign of localeCompare for the ASCII identifiers the source compares. -/
def charListCmp : List Char → List Char → Int
  | [], [] => 0
  | [], _ :: _ => -1
  | _ :: _, [] => 1
  | x :: xs, y :: ys =>
    if x.toNat < y.toNat then -1
    else if y.toNat < x.toNat then 1
    else charListCmp xs ys

/-- Model of a.localeCompare(b) (its sign). -/
def strCmpInt (a b : String) : Int := charListCmp a.data b.data

/-- JS `a || b` on two possibly-absent strings: empty string is falsy. -/
def jsOrStr (a b : Option String) : Option String :=
  match a with
  | some s => if s = "" then b else some s
  | none => b

/-- JS `a || d` on a possibly-absent number: 0 is falsy. -/
def jsOrNat (a : Option Nat) (d : Nat) : Nat :=
  match a with
  | some n => if n = 0 then d else n
  | none => d

/-- JS template-literal interpolation of a possibly-undefined string. -/
def tmplStr (o : Option String) : String := o.getD "undefined"

/-! ## Association-list model of JS Map -/

/-- Map.get with a `|| default` at the call site. -/
def mapGet {α : Type} (m : List (String × α)) (k : String) (d : α) : α :=
  (m.lookup k).getD d

/-- Map.set (first binding wins on lookup, so cons overrides). -/
def mapSet {α : Type} (m : List (String × α)) (k : String) (v : α) :
    List (String × α) := (k, v) :: m

/-! ## Time arithmetic (source lines 242-259, 347-358) -/

/-- timeToMinutes: "HH:MM" to minute-of-day. -/
def timeToMinutes (t : String) : Nat :=
  match (splitChar ':' t.data).map digitsToNat with
  | h :: m :: _ => h * 60 + m
  | _ => 0

/-- Two-digit zero-padded rendering (toString().padStart(2, "0") for the
values below 100 that occur for hours and minutes). -/
def pad2 (n : Nat) : String := ⟨[digitChar (n / 10), digitChar (n % 10)]⟩

/-- minutesToTime: minute-of-day to "HH:MM". -/
def minutesToTime (m : Nat) : String := pad2 (m / 60) ++ ":" ++ pad2 (m % 60)

/-- timeRangesOverlap: strict interval overlap on [s1,e1) and [s2,e2). -/
def timeRangesOverlap (start1 end1 start2 end2 : String) : Bool :=
  let start1Min := timeToMinutes start1
  let end1Min := timeToMinutes end1
  let start2Min := timeToMinutes start2
  let end2Min := timeToMinutes end2
  start1Min < end2Min && start2Min < end1Min

/-- isValidTimeSlot: inside 07:00-20:00, nonempty, missing lunch
[12:00, 13:00). -/
def isValidTimeSlot (startTime endTime : String) : Bool :=
  let startMin := timeToMinutes startTime
  let endMin := timeToMinutes endTime
  let lunchStart := timeToMinutes "12:00"
  let lunchEnd := timeToMinutes "13:00"
  let overlapsLunch := startMin < lunchEnd && endMin > lunchStart
  let validStart := startMin ≥ timeToMinutes "07:00"
  let validEnd := endMin ≤ timeToMinutes "20:00"
  !overlapsLunch && validStart && validEnd && decide (endMin > startMin)

/-! ## Scheduling constants (source lines 72-132) -/

def DAYS : List String :=
  ["Monday", "Tuesday", "Wednesday", "Thursday", "Friday", "Saturday", "Sunday"]

def LECTURE_DAY_PAIRS : List (String × String) :=
  [("Monday", "Wednesday"), ("Tuesday", "Thursday"), ("Monday", "Friday"),
   ("Wednesday", "Friday"), ("Tuesday", "Friday")]

def LAB_DAY_PAIRS : List (String × String) :=
  [("Tuesday", "Thursday"), ("Wednesday", "Friday"), ("Monday", "Friday"),
   ("Monday", "Wednesday"), ("Tuesday", "Friday")]

structure TimeSlot where
  startT : String
  endT : String
deriving DecidableEq, Repr

def TIME_SLOTS_1H : List TimeSlot :=
  [⟨"07:00", "08:00"⟩, ⟨"08:00", "09:00"⟩, ⟨"09:00", "10:00"⟩,
   ⟨"10:00", "11:00"⟩, ⟨"11:00", "12:00"⟩, ⟨"13:00", "14:00"⟩,
   ⟨"14:00", "15:00"⟩, ⟨"15:00", "16:00"⟩, ⟨"16:00", "17:00"⟩,
   ⟨"17:00", "18:00"⟩, ⟨"18:00", "19:00"⟩, ⟨"19:00", "20:00"⟩]

def TIME_SLOTS_1_5H : List TimeSlot :=
  [⟨"07:00", "08:30"⟩, ⟨"08:00", "09:30"⟩, ⟨"08:30", "10:00"⟩,
   ⟨"09:00", "10:30"⟩, ⟨"09:30", "11:00"⟩, ⟨"10:00", "11:30"⟩,
   ⟨"10:30", "12:00"⟩, ⟨"11:00", "12:30"⟩, ⟨"13:00", "14:30"⟩,
   ⟨"13:30", "15:00"⟩, ⟨"14:00", "15:30"⟩, ⟨"14:30", "16:00"⟩,
   ⟨"15:00", "16:30"⟩, ⟨"15:30", "17:00"⟩, ⟨"16:00", "17:30"⟩,
   ⟨"16:30", "18:00"⟩, ⟨"17:00", "18:30"⟩, ⟨"17:30", "19:00"⟩,
   ⟨"18:00", "19:30"⟩, ⟨"18:30", "20:00"⟩]

/-! ## Session rules (source lines 134-222) -/

inductive SessionType where
  | lecture
  | laboratory
deriving DecidableEq, Repr, Inhabited

/-- SessionRule; the source keeps duration, totalHoursNeeded and
hoursPerSession in hours (1 or 1.5); here they are in minutes. -/
structure SessionRule where
  type : SessionType
  durationMin : Nat
  totalMinutesNeeded : Nat
  sessionsPerWeek : Nat
  minutesPerSession : Nat
  priority : Nat
deriving DecidableEq, Repr

/-- Model of Array.prototype.sort with an integer comparator (JS sort is
stable; a stable sort of a total-preorder comparator is insertion sort). -/
def sortByIntCmp {α : Type} (cmp : α → α → Int) (l : List α) : List α :=
  List.insertionSort (fun a b => cmp a b ≤ 0) l

/-- department && (department.toUpperCase() === BSCS || === ACT). -/
def isBSCSorACT (department : Option String) : Bool :=
  match department with
  | none => false
  | some d => if d = "" then false else upperStr d = "BSCS" || upperStr d = "ACT"

/-- calculateSessionRules: expand lec/lab unit counts into weekly session
rules, lectures (priority 1) before laboratories (priority 2). -/
def calculateSessionRules (lecUnits labUnits : Nat) (department : Option String) :
    List SessionRule :=
  let lectureRules : List SessionRule :=
    if lecUnits > 0 then
      if lecUnits = 3 then
        [⟨.lecture, 90, 180, 2, 90, 1⟩]
      else if lecUnits = 2 then
        [⟨.lecture, 60, 120, 2, 60, 1⟩]
      else if lecUnits = 1 then
        [⟨.lecture, 60, 60, 1, 60, 1⟩]
      else
        [⟨.lecture, 60, lecUnits * 60, lecUnits, 60, 1⟩]
    else []
  let labRules : List SessionRule :=
    if labUnits > 0 then
      if isBSCSorACT department then
        [⟨.laboratory, 90, labUnits * 180, labUnits * 2, 90, 2⟩]
      else
        [⟨.laboratory, 60, labUnits * 60, labUnits, 60, 2⟩]
    else []
  sortByIntCmp (fun a b => (a.priority : Int) - (b.priority : Int))
    (lectureRules ++ labRules)

/-! ## Data model: instructors, courses, rooms -/

/-- Instructor row as loaded by UserService.getInstructors (the fields the
scheduler reads).  JSON-array columns arrive post-decode as
Option (List String). -/
structure Instructor where
  id : String
  firstname : String
  lastname : String
  role : String
  designation : Option String
  specialization : Option (List String)
  previousSubjects : Option (List String)
  yearsOfExperience : Option Nat
  availableDays : Option (List String)
  preferredTimeSlots : Option (List String)
deriving DecidableEq, Repr, Inhabited

/-- Enriched curriculum-course row (curriculumCourse joined with the
tags of its subject), the fields the generator reads. -/
structure Course where
  id : String
  subjectCode : String
  subjectName : Option String
  subjectDescription : Option String
  programCode : Option String
  programName : Option String
  yearLevel : String
  units : Nat
  lec : Nat
  lab : Nat
  tags : Option (List String)
deriving DecidableEq, Repr

structure Room where
  id : String
  name : String
deriving DecidableEq, Repr

/-- parseJsonArray on a JSON-array-or-null value: the Array.isArray branch
is the identity, the falsy branch returns []. -/
def parseJsonArray (v : Option (List String)) : List String := v.getD []

/-- The plain-string branch of parseJsonArray (used for the
`specialization || designation` fallback): comma-separated strings are
split and trimmed, anything else that is not JSON collapses to the
singleton of its trim. -/
def parseStringAsArray (s : String) : List String :=
  if containsSub s "," && !(startsWithStr (trimStr s) "[") then
    (((splitChar ',' s.data).map (fun l => trimStr ⟨l⟩)).filter
      (fun x => x.length > 0))
  else [trimStr s]

/-- `instructor.specialization || instructor.designation || ''` followed by
parseJsonArray. -/
def specListOf (i : Instructor) : List String :=
  match i.specialization with
  | some xs => xs
  | none =>
    match i.designation with
    | some d => if d = "" then [] else parseStringAsArray d
    | none => []

/-! ## Faculty scorer (source lines 360-376, 553-593) -/

/-- calculateFacultyMatchScore: Math.round(matched / total * 100); the
rounding is half-up, i.e. floor((200 m + n) / (2 n)). -/
def calculateFacultyMatchScore (courseTags facultySpecializations : List String) :
    Nat :=
  if courseTags.isEmpty || facultySpecializations.isEmpty then 0
  else
    let normalizedCourseTags := courseTags.map lowerTrim
    let normalizedSpecializations := facultySpecializations.map lowerTrim
    let matchedTagsCount :=
      (normalizedCourseTags.filter
        (fun t => normalizedSpecializations.contains t)).length
    (matchedTagsCount * 200 + normalizedCourseTags.length) /
      (2 * normalizedCourseTags.length)

/-- calculateEnhancedFacultyScore, accumulated in source order:
specialization match, previous-subject bonus, capped experience, regular
designation bonus, then the workload disqualifier overwrite. -/
def calculateEnhancedFacultyScore (course : Course) (faculty : Instructor)
    (courseTags facultySpecializations : List String)
    (currentWorkload maxUnits : Nat) : Int :=
  let tagMatchPercentage := calculateFacultyMatchScore courseTags facultySpecializations
  let score1 : Int := 0 + tagMatchPercentage
  let previousSubjects := parseJsonArray faculty.previousSubjects
  let subjectCodeLower := lowerTrim course.subjectCode
  let subjectNameLower := (course.subjectName.map lowerTrim).getD ""
  let hasTaughtSubject := previousSubjects.any (fun prevSubj =>
    if prevSubj = "" then false
    else
      let prevSubjLower := lowerTrim prevSubj
      prevSubjLower = subjectCodeLower || prevSubjLower = subjectNameLower)
  let score2 := if hasTaughtSubject then score1 + 50 else score1
  let experience := faculty.yearsOfExperience.getD 0
  let score3 := score2 + min experience 20
  let isRegularFaculty :=
    match faculty.designation with
    | some d => d ≠ "" && containsSub (lowerStr d) "regular"
    | none => false
  let score4 := if isRegularFaculty then score3 + 10 else score3
  if currentWorkload ≥ maxUnits then -1000 else score4

/-- Instructor extended with the scoring fields spread on by
findBestFacultyMatchesWithRoles. -/
structure ScoredFaculty extends Instructor where
  matchScore : Int
  tagMatchPercentage : Nat
  currentWorkload : Nat
  maxUnits : Nat
deriving DecidableEq, Repr, Inhabited

/-- ScoredFaculty extended with its 1-based rank. -/
structure Candidate extends ScoredFaculty where
  rank : Nat
deriving DecidableEq, Repr, Inhabited

/-- The sort comparator of findBestFacultyMatchesWithRoles:
score desc, tag match desc, experience desc, last name asc. -/
def facultyCmp (a b : ScoredFaculty) : Int :=
  if a.matchScore ≠ b.matchScore then b.matchScore - a.matchScore
  else if a.tagMatchPercentage ≠ b.tagMatchPercentage then
    (b.tagMatchPercentage : Int) - (a.tagMatchPercentage : Int)
  else
    let aExp := a.yearsOfExperience.getD 0
    let bExp := b.yearsOfExperience.getD 0
    if bExp ≠ aExp then (bExp : Int) - (aExp : Int)
    else strCmpInt a.lastname b.lastname

/-- The per-instructor scored record built inside
findBestFacultyMatchesWithRoles. -/
def mkScoredFaculty (course : Course) (facultyWorkload : List (String × Nat))
    (instructorMaxUnits : List (String × Nat)) (courseTags : List String)
    (instructor : Instructor) : ScoredFaculty :=
  let facultySpecializations := specListOf instructor
  let currentLoad := (facultyWorkload.lookup instructor.id).getD 0
  let maxUnits := jsOrNat (instructorMaxUnits.lookup instructor.id) 18
  let enhancedScore := calculateEnhancedFacultyScore course instructor
    courseTags facultySpecializations currentLoad maxUnits
  let tagMatchPercentage := calculateFacultyMatchScore courseTags facultySpecializations
  { instructor with
    matchScore := enhancedScore
    tagMatchPercentage := tagMatchPercentage
    currentWorkload := currentLoad
    maxUnits := maxUnits }

/-- findBestFacultyMatchesWithRoles: score every instructor, sort by the
comparator, attach ranks, keep only score > 0 with tag match > 0, and
return at most maxMatches of them. -/
def findBestFacultyMatchesWithRoles (course : Course) (instructors : List Instructor)
    (facultyWorkload : List (String × Nat)) (instructorMaxUnits : List (String × Nat))
    (maxMatches : Nat) : List Candidate :=
  let courseTags := parseJsonArray course.tags
  let facultyWithScores :=
    instructors.map (mkScoredFaculty course facultyWorkload instructorMaxUnits courseTags)
  let sortedFaculty := sortByIntCmp facultyCmp facultyWithScores
  let rankedFaculty := sortedFaculty.enum.map (fun p => Candidate.mk p.2 (p.1 + 1))
  let goodMatches := rankedFaculty.filter
    (fun f => f.matchScore > 0 && f.tagMatchPercentage > 0)
  goodMatches.take maxMatches

/-! ## Faculty day / time preferences (source lines 381-503) -/

/-- isFacultyAvailableOnDays: all requested days lie in the
availableDays; missing or empty data means fully available. -/
def isFacultyAvailableOnDays (faculty : Instructor) (days : List String) : Bool :=
  match faculty.availableDays with
  | none => true
  | some availableDays =>
    if availableDays.isEmpty then true
    else days.all (fun day => availableDays.contains day)

/-- Parse "H:MM" / "HH:MM" at the head of a character list, returning
hours, minutes and the rest. -/
def parseClock (l : List Char) : Option (Nat × Nat × List Char) :=
  match l with
  | d1 :: ':' :: m1 :: m2 :: rest =>
    if d1.isDigit && m1.isDigit && m2.isDigit then
      some (digitsToNat [d1], digitsToNat [m1, m2], rest)
    else none
  | d1 :: d2 :: ':' :: m1 :: m2 :: rest =>
    if d1.isDigit && d2.isDigit && m1.isDigit && m2.isDigit then
      some (digitsToNat [d1, d2], digitsToNat [m1, m2], rest)
    else none
  | _ => none

def dropSpaces (l : List Char) : List Char := l.dropWhile (fun c => c = ' ')

/-- Parse an optional AM / PM marker (case-insensitive). -/
def parsePeriod (l : List Char) : Option Bool × List Char :=
  match l with
  | c1 :: c2 :: rest =>
    if (chLower c1 = 'a' || chLower c1 = 'p') && chLower c2 = 'm' then
      (some (chLower c1 = 'p'), rest)
    else (none, l)
  | _ => (none, l)

/-- 12-hour to 24-hour conversion as performed by the source after its
regex match: PM adds 12 except at 12, AM turns 12 into 0. -/
def to24Hour (h : Nat) (period : Option Bool) : Nat :=
  match period with
  | none => h
  | some isPM =>
    if isPM then (if h ≠ 12 then h + 12 else h)
    else (if h = 12 then 0 else h)

/-- Try to read a full "H:MM (AM|PM)? - H:MM (AM|PM)?" range starting at
this position; returns the two bounds in minutes. -/
def parseClockRangeHere (l : List Char) : Option (Nat × Nat) :=
  match parseClock l with
  | none => none
  | some (h1, m1, rest1) =>
    let (p1, rest2) := parsePeriod (dropSpaces rest1)
    match dropSpaces rest2 with
    | '-' :: rest3 =>
      match parseClock (dropSpaces rest3) with
      | none => none
      | some (h2, m2, rest4) =>
        let (p2, _) := parsePeriod (dropSpaces rest4)
        some (to24Hour h1 p1 * 60 + m1, to24Hour h2 p2 * 60 + m2)
    | _ => none

/-- Leftmost match of the clock-range pattern anywhere in the string
(model of the unanchored regex search of the source). -/
def parseClockRange : List Char → Option (Nat × Nat)
  | [] => none
  | x :: xs =>
    match parseClockRangeHere (x :: xs) with
    | some r => some r
    | none => parseClockRange xs

/-- isFacultyAvailableAtTime: the requested interval must lie inside the
preferred window.  The window is read either from the array format
["start:HH:MM", "end:HH:MM"] (the loop keeps the last marker of each
kind) or, failing that, from the first item matching the
"8:00 AM - 5:00 PM" string format; missing or empty data means fully
available. -/
def isFacultyAvailableAtTime (faculty : Instructor) (startTime endTime : String) :
    Bool :=
  match faculty.preferredTimeSlots with
  | none => true
  | some preferredTimeSlots =>
    if preferredTimeSlots.isEmpty then true
    else
      let startMin := timeToMinutes startTime
      let endMin := timeToMinutes endTime
      let slotStart := preferredTimeSlots.foldl
        (fun acc item =>
          if startsWithStr item "start:" then some (dropStr 6 item)
          else acc) none
      let slotEnd := preferredTimeSlots.foldl
        (fun acc item =>
          if startsWithStr item "start:" then acc
          else if startsWithStr item "end:" then some (dropStr 4 item)
          else acc) none
      match slotStart, slotEnd with
      | some ss, some se =>
        startMin ≥ timeToMinutes ss && endMin ≤ timeToMinutes se
      | _, _ =>
        preferredTimeSlots.any (fun slot =>
          if containsSub slot "start:" || containsSub slot "end:" then false
          else
            match parseClockRange slot.data with
            | none => false
            | some (slotStartMin, slotEndMin) =>
              startMin ≥ slotStartMin && endMin ≤ slotEndMin)

/-! ## Tracking-table state and the availability oracle
(source lines 714-812) -/

/-- One entry of a usedSlots / usedRooms set: the unpacked
"semester|day|start|end" string. -/
structure Booking where
  semester : String
  day : String
  startT : String
  endT : String
deriving DecidableEq, Repr

/-- One entry of a usedProgramYearSlots set: the unpacked
"day|start|end" string. -/
structure PYSlot where
  day : String
  startT : String
  endT : String
deriving DecidableEq, Repr

/-- One scheduledSubjects record (the generate output unit); the
curriculum-year fields duplicate the run parameter as in the source. -/
structure Sched where
  id : String
  subjectId : String
  subjectCode : String
  subjectName : String
  facultyId : String
  facultyName : String
  roomId : String
  roomName : String
  day : String
  startTime : String
  endTime : String
  units : Nat
  lec : Nat
  lab : Nat
  yearLevel : String
  semester : String
  program : Option String
  type : SessionType
  recommendedFaculty : List Candidate
  curriculumYear : String
  academicYear : String
deriving DecidableEq, Repr, Inhabited

/-- The four shared tracking tables plus the accumulated output list of a
generation run. -/
structure SchedState where
  facultyWorkload : List (String × Nat)
  usedSlots : List (String × List Booking)
  usedRooms : List (String × List Booking)
  usedProgramYearSlots : List (String × List PYSlot)
  usedDayPairsForSubject : List (String × List String)
  scheduledSubjects : List Sched
deriving DecidableEq, Repr

def SchedState.empty : SchedState := ⟨[], [], [], [], [], []⟩

/-- isRoomAvailable: no booked slot of this room on any requested day in
the same semester overlaps the interval. -/
def isRoomAvailable (roomId : String) (days : List String)
    (startTime endTime semester : String)
    (usedRooms : List (String × List Booking)) : Bool :=
  let roomSlots := mapGet usedRooms roomId []
  days.all (fun day => roomSlots.all (fun existingSlot =>
    !(existingSlot.semester = semester && existingSlot.day = day &&
      timeRangesOverlap startTime endTime existingSlot.startT existingSlot.endT)))

/-- isFacultyAvailable: day and time preferences, then for every booked
slot of this faculty on a same semester and day: no overlap and a 30-minute
break on both sides. -/
def isFacultyAvailable (facultyId : String) (days : List String)
    (startTime endTime semester : String)
    (usedSlots : List (String × List Booking)) (faculty : Option Instructor) :
    Bool :=
  let facultySlots := mapGet usedSlots facultyId []
  (match faculty with
   | some f => isFacultyAvailableOnDays f days && isFacultyAvailableAtTime f startTime endTime
   | none => true) &&
  days.all (fun day => facultySlots.all (fun existingSlot =>
    if existingSlot.semester = semester && existingSlot.day = day then
      let currentStartMin := timeToMinutes startTime
      let currentEndMin := timeToMinutes endTime
      let existingStartMin := timeToMinutes existingSlot.startT
      let existingEndMin := timeToMinutes existingSlot.endT
      !(timeRangesOverlap startTime endTime existingSlot.startT existingSlot.endT) &&
      !(currentStartMin ≥ existingEndMin && currentStartMin < existingEndMin + 30) &&
      !(existingStartMin ≥ currentEndMin && existingStartMin < currentEndMin + 30)
    else true))

/-! ## Placement engine (source lines 817-1034) -/

/-- ScheduledSession as produced by scheduleSubjectSessions. -/
structure Session where
  day : String
  startTime : String
  endTime : String
  facultyId : String
  facultyName : String
  roomId : String
  roomName : String
deriving DecidableEq, Repr

/-- A curriculum course enriched with its recommended-faculty list. -/
structure EnrichedCourse extends Course where
  recommendedFaculty : List Candidate
deriving DecidableEq, Repr

/-- scheduledSubjects.some with the same subject code, faculty and
semester. -/
def alreadyTeachingB (scheduledSubjects : List Sched) (course : Course)
    (facultyId semester : String) : Bool :=
  scheduledSubjects.any (fun s =>
    s.subjectCode = course.subjectCode && s.facultyId = facultyId &&
      s.semester = semester)

/-- Laboratory sessions prefer rooms whose name contains "lab", lectures
the others; an empty candidate list falls back to all rooms. -/
def roomCandidatesFor (type : SessionType) (rooms : List Room) : List Room :=
  let roomCandidates :=
    if type = SessionType.laboratory then
      rooms.filter (fun r => containsSub (lowerStr r.name) "lab")
    else
      rooms.filter (fun r => !(containsSub (lowerStr r.name) "lab"))
  if roomCandidates.isEmpty then rooms else roomCandidates

/-- The committed choice of the paired-session search. -/
structure Placement where
  faculty : Candidate
  day1 : String
  day2 : String
  startTime : String
  endTime : String
  room : Room
deriving DecidableEq, Repr

/-- The faculty-outermost search of the needsPairing branch: first
faculty (by rank), then day pair, then time slot, then room, that passes
every check; each `continue` of the source is a none / guard below. -/
def searchPlacement (course : EnrichedCourse) (rule : SessionRule)
    (rooms : List Room) (st : SchedState) (semester : String)
    (instructorMaxUnits : List (String × Nat))
    (dayPairsToTry : List (String × String)) (timeSlots : List TimeSlot)
    (durationMinutes : Nat) (programYearKey : String) : Option Placement :=
  course.recommendedFaculty.findSome? (fun faculty =>
    let facultyId := faculty.id
    let currentWorkload := mapGet st.facultyWorkload facultyId 0
    let facultyMaxUnits := jsOrNat (instructorMaxUnits.lookup facultyId) 18
    let alreadyTeaching :=
      alreadyTeachingB st.scheduledSubjects course.toCourse facultyId semester
    if !alreadyTeaching && currentWorkload + course.units > facultyMaxUnits then
      none
    else
      dayPairsToTry.findSome? (fun dayPair =>
        let day1 := dayPair.1
        let day2 := dayPair.2
        if !(isFacultyAvailableOnDays faculty.toInstructor [day1, day2]) then none
        else
          timeSlots.findSome? (fun slot =>
            let startTime := slot.startT
            let endTime := minutesToTime (timeToMinutes startTime + durationMinutes)
            if !(isValidTimeSlot startTime endTime) then none
            else if !(isFacultyAvailableAtTime faculty.toInstructor startTime endTime) then
              none
            else
              let programYearSlots := mapGet st.usedProgramYearSlots programYearKey []
              let slot1 : PYSlot := ⟨day1, startTime, endTime⟩
              let slot2 : PYSlot := ⟨day2, startTime, endTime⟩
              if programYearSlots.contains slot1 || programYearSlots.contains slot2 then
                none
              else if programYearSlots.any (fun existingSlot =>
                  (existingSlot.day = day1 &&
                    timeRangesOverlap startTime endTime existingSlot.startT existingSlot.endT) ||
                  (existingSlot.day = day2 &&
                    timeRangesOverlap startTime endTime existingSlot.startT existingSlot.endT)) then
                none
              else if !(isFacultyAvailable facultyId [day1, day2] startTime endTime
                  semester st.usedSlots (some faculty.toInstructor)) then
                none
              else
                ((roomCandidatesFor rule.type rooms).find? (fun room =>
                    isRoomAvailable room.id [day1, day2] startTime endTime semester
                      st.usedRooms)).map
                  (fun room => ⟨faculty, day1, day2, startTime, endTime, room⟩))))

/-- Book both paired sessions: push the two ScheduledSessions and update
the four tracking tables, adding the course units to the faculty workload
only when this is the first commit of this faculty for the subject. -/
def commitPlacement (course : EnrichedCourse) (st : SchedState)
    (semester : String) (p : Placement) (programYearKey subjectKey : String) :
    List Session × SchedState :=
  let facultyId := p.faculty.id
  let facultyName := p.faculty.firstname ++ " " ++ p.faculty.lastname
  let roomId := p.room.id
  let s1 : Session :=
    ⟨p.day1, p.startTime, p.endTime, facultyId, facultyName, roomId, p.room.name⟩
  let s2 : Session :=
    ⟨p.day2, p.startTime, p.endTime, facultyId, facultyName, roomId, p.room.name⟩
  let b1 : Booking := ⟨semester, p.day1, p.startTime, p.endTime⟩
  let b2 : Booking := ⟨semester, p.day2, p.startTime, p.endTime⟩
  let usedSlots' := mapSet st.usedSlots facultyId
    (mapGet st.usedSlots facultyId [] ++ [b1, b2])
  let usedRooms' := mapSet st.usedRooms roomId
    (mapGet st.usedRooms roomId [] ++ [b1, b2])
  let usedProgramYearSlots' := mapSet st.usedProgramYearSlots programYearKey
    (mapGet st.usedProgramYearSlots programYearKey [] ++
      [⟨p.day1, p.startTime, p.endTime⟩, ⟨p.day2, p.startTime, p.endTime⟩])
  let usedDayPairsForSubject' := mapSet st.usedDayPairsForSubject subjectKey
    (mapGet st.usedDayPairsForSubject subjectKey [] ++ [p.day1, p.day2])
  let alreadyTeaching :=
    alreadyTeachingB st.scheduledSubjects course.toCourse facultyId semester
  let currentWorkload := mapGet st.facultyWorkload facultyId 0
  let facultyWorkload' :=
    if alreadyTeaching then st.facultyWorkload
    else mapSet st.facultyWorkload facultyId (currentWorkload + course.units)
  ([s1, s2],
   { st with
      facultyWorkload := facultyWorkload'
      usedSlots := usedSlots'
      usedRooms := usedRooms'
      usedProgramYearSlots := usedProgramYearSlots'
      usedDayPairsForSubject := usedDayPairsForSubject' })

/-- The slot table for a rule: 1-hour slots for 1-hour sessions, the
1.5-hour table otherwise. -/
def timeSlotsFor (rule : SessionRule) : List TimeSlot :=
  if rule.minutesPerSession = 60 then TIME_SLOTS_1H else TIME_SLOTS_1_5H

/-- The program-year cohort key of a course. -/
def programYearKeyOf (course : Course) (semester : String) : String :=
  tmplStr course.programCode ++ "_" ++ course.yearLevel ++ "_" ++ semester

/-- The subject-days key of a course. -/
def subjectKeyOf (course : Course) (semester : String) : String :=
  course.subjectCode ++ "_" ++ semester

/-- The canonical day pairs for a rule minus any pair touching a day this
subject already uses. -/
def dayPairsFor (rule : SessionRule) (st : SchedState) (subjectKey : String) :
    List (String × String) :=
  let alreadyUsedDays := mapGet st.usedDayPairsForSubject subjectKey []
  (if rule.type = SessionType.laboratory then LAB_DAY_PAIRS else LECTURE_DAY_PAIRS).filter
    (fun pair => !(alreadyUsedDays.contains pair.1 || alreadyUsedDays.contains pair.2))

/-- scheduleSubjectSessions: select the slot table and the day pairs (minus
days this subject already uses), then run the paired search and commit; the
single-session branch of the source is stubbed (a TODO that returns no
sessions), and an empty day-pair list also returns nothing. -/
def scheduleSubjectSessions (course : EnrichedCourse) (rule : SessionRule)
    (rooms : List Room) (st : SchedState) (semester : String)
    (instructorMaxUnits : List (String × Nat)) : List Session × SchedState :=
  let timeSlots := timeSlotsFor rule
  let durationMinutes := rule.minutesPerSession
  let programYearKey := programYearKeyOf course.toCourse semester
  let subjectKey := subjectKeyOf course.toCourse semester
  let dayPairsToTry := dayPairsFor rule st subjectKey
  if dayPairsToTry.isEmpty then ([], st)
  else if rule.sessionsPerWeek = 2 then
    match searchPlacement course rule rooms st semester instructorMaxUnits
        dayPairsToTry timeSlots durationMinutes programYearKey with
    | some p => commitPlacement course st semester p programYearKey subjectKey
    | none => ([], st)
  else ([], st)

/-! ## The generate pipeline (source lines 1036-1359) -/

/-- Role-based per-instructor max units: 6 for CAMPUS_ADMIN, the
configured default otherwise. -/
def instructorMaxUnitsMap (instructors : List Instructor) (defaultMaxUnits : Nat) :
    List (String × Nat) :=
  instructors.foldl
    (fun m instructor =>
      mapSet m instructor.id
        (if instructor.role = "CAMPUS_ADMIN" then 6 else defaultMaxUnits)) []

/-- Attach the top-five recommended faculty to every course (computed in
the source before any placement, against the then-empty workload map). -/
def enrichCourses (courses : List Course) (instructors : List Instructor)
    (facultyWorkload : List (String × Nat)) (instructorMaxUnits : List (String × Nat)) :
    List EnrichedCourse :=
  courses.map (fun c =>
    ⟨c, findBestFacultyMatchesWithRoles c instructors facultyWorkload
      instructorMaxUnits 5⟩)

def sessionTypeLower : SessionType → String
  | .lecture => "lecture"
  | .laboratory => "laboratory"

/-- The scheduledSubjects record pushed for one committed session. -/
def toSched (course : EnrichedCourse) (rule : SessionRule)
    (semester curriculumYear : String) (session : Session) : Sched :=
  { id := course.id ++ "-" ++ sessionTypeLower rule.type ++ "-" ++ session.day
    subjectId := course.id
    subjectCode := course.subjectCode
    subjectName := course.subjectDescription.getD ""
    facultyId := session.facultyId
    facultyName := session.facultyName
    roomId := session.roomId
    roomName := session.roomName
    day := session.day
    startTime := session.startTime
    endTime := session.endTime
    units := if course.units = 0 then 3 else course.units
    lec := course.lec
    lab := course.lab
    yearLevel := course.yearLevel
    semester := semester
    program := jsOrStr course.programCode course.programName
    type := rule.type
    recommendedFaculty := course.recommendedFaculty
    curriculumYear := curriculumYear
    academicYear := curriculumYear }

/-- Schedule one rule of one course and append the committed sessions as
scheduledSubjects records. -/
def processRule (semester curriculumYear : String) (rooms : List Room)
    (instructorMaxUnits : List (String × Nat)) (course : EnrichedCourse)
    (st : SchedState) (rule : SessionRule) : SchedState :=
  let r := scheduleSubjectSessions course rule rooms st semester instructorMaxUnits
  { r.2 with
      scheduledSubjects :=
        r.2.scheduledSubjects ++ r.1.map (toSched course rule semester curriculumYear) }

/-- Process one course: derive its session rules and schedule them in
priority order, appending the committed sessions to scheduledSubjects. -/
def processCourse (semester curriculumYear : String) (rooms : List Room)
    (instructorMaxUnits : List (String × Nat)) (st : SchedState)
    (course : EnrichedCourse) : SchedState :=
  let department := jsOrStr course.programCode course.programName
  let sessionRules := calculateSessionRules course.lec course.lab department
  sessionRules.foldl (processRule semester curriculumYear rooms instructorMaxUnits course) st

/-- indexOf against the weekday list (-1 when missing, as in JS). -/
def jsIndexOf (l : List String) (s : String) : Int :=
  match l.findIdx? (fun x => x = s) with
  | some i => (i : Int)
  | none => -1

def typeOrderOf : SessionType → Int
  | .lecture => 1
  | .laboratory => 2

/-- The final output sort: subject code, program, year level, semester,
lecture before laboratory, weekday order, start time. -/
def schedSortCmp (a b : Sched) : Int :=
  let subjectCompare := strCmpInt a.subjectCode b.subjectCode
  if subjectCompare ≠ 0 then subjectCompare
  else
    let programCompare := strCmpInt (a.program.getD "") (b.program.getD "")
    if programCompare ≠ 0 then programCompare
    else
      let yearCompare := strCmpInt a.yearLevel b.yearLevel
      if yearCompare ≠ 0 then yearCompare
      else
        let semesterCompare := strCmpInt a.semester b.semester
        if semesterCompare ≠ 0 then semesterCompare
        else if a.type ≠ b.type then typeOrderOf a.type - typeOrderOf b.type
        else
          let aDayIndex := jsIndexOf DAYS a.day
          let bDayIndex := jsIndexOf DAYS b.day
          if aDayIndex ≠ bDayIndex then aDayIndex - bDayIndex
          else strCmpInt a.startTime b.startTime

/-- Outcome of a generate call: parameter rejection, empty dataset, or the
sorted session list together with the final tracking state. -/
inductive GenerateResult where
  | badRequest : GenerateResult
  | notFound : GenerateResult
  | ok : List Sched → SchedState → GenerateResult
deriving DecidableEq, Repr

/-- generateSchedule (the pure core of the controller): validate inputs,
filter courses by program, build role-based caps, compute the
recommended faculty of every course against the still-empty workload map, place courses in
input order, and sort the committed sessions for output. -/
def generateSchedule (curriculumYear semester : String) (program : Option String)
    (instructors : List Instructor) (rooms : List Room)
    (curriculumCourses : List Course) (totalUnitsConfig : Option Nat) :
    GenerateResult :=
  if curriculumYear = "" || semester = "" then .badRequest
  else
    let courses :=
      match program with
      | some p =>
        if p = "" || p = "all" then curriculumCourses
        else curriculumCourses.filter (fun c => c.programCode = some p)
      | none => curriculumCourses
    if courses.isEmpty then .notFound
    else
      let defaultMaxUnits := jsOrNat totalUnitsConfig 18
      let instructorMaxUnits := instructorMaxUnitsMap instructors defaultMaxUnits
      let st0 := SchedState.empty
      let subjectsWithData :=
        enrichCourses courses instructors st0.facultyWorkload instructorMaxUnits
      let finalSt := subjectsWithData.foldl
        (processCourse semester curriculumYear rooms instructorMaxUnits) st0
      .ok (sortByIntCmp schedSortCmp finalSt.scheduledSubjects) finalSt

/-- The session list of a generate outcome (empty on rejection). -/
def subjectsOf : GenerateResult → List Sched
  | .ok subs _ => subs
  | _ => []

/-- The final tracking state of a generate outcome. -/
def stateOf : GenerateResult → SchedState
  | .ok _ st => st
  | _ => SchedState.empty

/-! ## The save endpoint (source lines 1402-1496) -/

/-- A request-body schedule item as read by saveLatestSchedule (the fields
the endpoint reads; every one may be absent). -/
structure SaveItem where
  curriculumYear : Option String
  academicYear : Option String
  semester : Option String
  subjectCode : Option String
  subjectName : Option String
  facultyId : Option String
  day : Option String
  startTime : Option String
  endTime : Option String
  program : Option String
deriving DecidableEq, Repr

/-- A persisted subjectSchedule row (the columns the claims are about;
createMany writes `field ?? ''` for each). -/
structure Row where
  academicYear : String
  semester : String
  subjectCode : String
  subjectName : String
  facultyId : String
  day : String
  startTime : String
  endTime : String
  program : String
deriving DecidableEq, Repr

/-- The row written for one request item. -/
def toRow (item : SaveItem) : Row :=
  { academicYear := item.academicYear.getD ""
    semester := item.semester.getD ""
    subjectCode := item.subjectCode.getD ""
    subjectName := item.subjectName.getD ""
    facultyId := item.facultyId.getD ""
    day := item.day.getD ""
    startTime := item.startTime.getD ""
    endTime := item.endTime.getD ""
    program := item.program.getD "" }

inductive SaveOutcome where
  | badRequest : SaveOutcome
  | serverError : SaveOutcome
  | okSave : Nat → Nat → SaveOutcome
deriving DecidableEq, Repr

/-- The deleteMany filter: academicYear must equal the derived year; the
semester condition is present only when the first item carries a semester
(Prisma drops undefined conditions). -/
def saveDeleteMatches (year : String) (semester : Option String) (r : Row) : Bool :=
  r.academicYear = year &&
    (match semester with
     | some s => r.semester = s
     | none => true)

/-- saveLatestSchedule over an explicit store: validate, deleteMany on the
(year, optional semester) key, then createMany of all items.  The two
store operations are separate awaits in the source (no transaction), so a
createMany fault leaves the deletion committed; each Bool tells whether
the corresponding store call succeeds. -/
def saveLatestSchedule (subjects : List SaveItem) (store : List Row)
    (deleteSucceeds insertSucceeds : Bool) : SaveOutcome × List Row :=
  match subjects with
  | [] => (.badRequest, store)
  | first :: _ =>
    let curriculumYear := jsOrStr first.curriculumYear first.academicYear
    let semester := first.semester
    match curriculumYear with
    | none => (.badRequest, store)
    | some year =>
      if year = "" then (.badRequest, store)
      else if !deleteSucceeds then (.serverError, store)
      else
        let afterDelete := store.filter (fun r => !(saveDeleteMatches year semester r))
        let deletedCount := store.length - afterDelete.length
        if !insertSucceeds then (.serverError, afterDelete)
        else
          (.okSave deletedCount subjects.length, afterDelete ++ subjects.map toRow)

/-! ## Specification-side definitions, fixtures and invariant predicates -/

/-- Claim P1 for one pair of sessions: on a shared faculty, semester and
day, the intervals do not overlap and each direction keeps a 30-minute
gap. -/
def facultyDisjoint (s1 s2 : Sched) : Prop :=
  s1.facultyId = s2.facultyId → s1.semester = s2.semester → s1.day = s2.day →
    ¬(timeToMinutes s1.startTime < timeToMinutes s2.endTime ∧
      timeToMinutes s2.startTime < timeToMinutes s1.endTime) ∧
    (timeToMinutes s1.endTime ≤ timeToMinutes s2.startTime →
      timeToMinutes s1.endTime + 30 ≤ timeToMinutes s2.startTime) ∧
    (timeToMinutes s2.endTime ≤ timeToMinutes s1.startTime →
      timeToMinutes s2.endTime + 30 ≤ timeToMinutes s1.startTime)

/-- Claim P4 for one session: inside working hours, nonempty, missing the
lunch block. -/
def validSessionTimes (s : Sched) : Prop :=
  420 ≤ timeToMinutes s.startTime ∧
  timeToMinutes s.startTime < timeToMinutes s.endTime ∧
  timeToMinutes s.endTime ≤ 1200 ∧
  (timeToMinutes s.endTime ≤ 720 ∨ 780 ≤ timeToMinutes s.startTime)

/-- What generation guarantees about every recommended candidate it
records: the workload snapshot is the pre-placement zero and the filter
kept only positive scores. -/
def candidateOK (cand : Candidate) : Prop :=
  cand.currentWorkload = 0 ∧ 0 < cand.matchScore

/-- The invariant every commit of a generation run maintains. -/
structure RunInv (sem : String) (maxMap : List (String × Nat)) (st : SchedState) :
    Prop where
  semAll : ∀ s ∈ st.scheduledSubjects, s.semester = sem
  bookings : ∀ s ∈ st.scheduledSubjects,
    (⟨sem, s.day, s.startTime, s.endTime⟩ : Booking) ∈
      mapGet st.usedSlots s.facultyId []
  disjoint : List.Pairwise facultyDisjoint st.scheduledSubjects
  valid : ∀ s ∈ st.scheduledSubjects, validSessionTimes s
  workload : ∀ fid, mapGet st.facultyWorkload fid 0 ≤ jsOrNat (maxMap.lookup fid) 18
  recFac : ∀ s ∈ st.scheduledSubjects, ∀ cand ∈ s.recommendedFaculty, candidateOK cand

/-- An approved instructor with a matching specialization and no declared
day or time preferences. -/
def exInstructor : Instructor :=
  { id := "1"
    firstname := "Ann"
    lastname := "Aaa"
    role := "FACULTY"
    designation := none
    specialization := some ["Programming"]
    previousSubjects := none
    yearsOfExperience := some 5
    availableDays := none
    preferredTimeSlots := none }

/-- A lecture room (name does not contain "lab"). -/
def exRoom : Room := { id := "r1", name := "Room 101" }

/-- A 10-unit 3-lecture-unit course of program BSCS. -/
def exCourseA : Course :=
  { id := "10"
    subjectCode := "CS101"
    subjectName := none
    subjectDescription := some "Intro to CS"
    programCode := some "BSCS"
    programName := none
    yearLevel := "1st Year"
    units := 10
    lec := 3
    lab := 0
    tags := some ["Programming"] }

/-- The same subject code offered by a different program. -/
def exCourseB : Course := { exCourseA with id := "20", programCode := some "ACT" }

/-- A generate run over the two same-code courses. -/
def exGen : GenerateResult :=
  generateSchedule "2024" "1st Semester" none [exInstructor] [exRoom]
    [exCourseA, exCourseB] (some 18)

/-- The sum of course.units over the distinct courses (identified by their
ids) that a generate output assigns to one instructor: the quantity of
claim C6. -/
def distinctCourseLoad (courses : List Course) (subs : List Sched) (fid : String) :
    Nat :=
  ((courses.filter (fun c => subs.any (fun s => s.facultyId = fid &&
    s.subjectId = c.id))).map (fun c => c.units)).sum

/-- A 1-lecture-unit course (its derived rule has sessionsPerWeek = 1). -/
def exCourseSingle : Course :=
  { exCourseA with id := "30", subjectCode := "CS103", lec := 1, units := 3 }

def exMaxMap : List (String × Nat) := instructorMaxUnitsMap [exInstructor] 18

/-- exCourseSingle enriched exactly as the generate pipeline would. -/
def exEnrichedSingle : EnrichedCourse :=
  ⟨exCourseSingle,
   findBestFacultyMatchesWithRoles exCourseSingle [exInstructor] [] exMaxMap 5⟩

/-- The session-rule table exactly as claim C5 words it: lectures
3 to 2 x 1.5h, 2 to 2 x 1h, 1 to 1 x 1h, other positive n to n x 1h;
labs for BSCS/ACT to 2 x labUnits sessions of 1.5h (3 hours per lab unit),
otherwise labUnits x 1h; zero units emit nothing; lectures precede labs. -/
def sessionRulesSpec (lecUnits labUnits : Nat) (department : Option String) :
    List SessionRule :=
  (if lecUnits = 0 then []
   else if lecUnits = 3 then [⟨.lecture, 90, 180, 2, 90, 1⟩]
   else if lecUnits = 2 then [⟨.lecture, 60, 120, 2, 60, 1⟩]
   else if lecUnits = 1 then [⟨.lecture, 60, 60, 1, 60, 1⟩]
   else [⟨.lecture, 60, lecUnits * 60, lecUnits, 60, 1⟩]) ++
  (if labUnits = 0 then []
   else if isBSCSorACT department then
     [⟨.laboratory, 90, labUnits * 180, labUnits * 2, 90, 2⟩]
   else [⟨.laboratory, 60, labUnits * 60, labUnits, 60, 2⟩])

/-- The 1.5-hour table in minute form. -/
def tableMinutes15 : List (Nat × Nat) :=
  TIME_SLOTS_1_5H.map (fun s => (timeToMinutes s.startT, timeToMinutes s.endT))

/-- Slot validity on minutes, as claim C7 words it: start at or after
07:00, end at or before 20:00, nonempty, missing [12:00, 13:00). -/
def validSlotMinB (s e : Nat) : Bool :=
  decide (420 ≤ s) && decide (e ≤ 1200) && decide (s < e) &&
    !(decide (s < 780) && decide (720 < e))

/-- A request item carrying the full (year, semester) key. -/
def exItemA : SaveItem :=
  { curriculumYear := some "2024"
    academicYear := some "2024"
    semester := some "1st Semester"
    subjectCode := some "CS101"
    subjectName := some "Intro to CS"
    facultyId := some "1"
    day := some "Monday"
    startTime := some "07:00"
    endTime := some "08:30"
    program := some "BSCS" }

/-- A persisted row under the same (year, semester) key. -/
def exRowOld : Row :=
  { academicYear := "2024"
    semester := "1st Semester"
    subjectCode := "OLD1"
    subjectName := "Old subject"
    facultyId := "9"
    day := "Friday"
    startTime := "09:00"
    endTime := "10:00"
    program := "BSCS" }

/-- A persisted row of the same year under a different semester. -/
def exRowOtherSem : Row := { exRowOld with semester := "2nd Semester", subjectCode := "OLD2" }

/-- A persisted row of a different year. -/
def exRowOtherYear : Row := { exRowOld with academicYear := "2023", subjectCode := "OLD3" }

/-- The score formula exactly as claim C4 words it: tag_match, plus 50 if
the previous subjects contain the subject code or subject name of the course
(case-insensitively; the source skips empty previous-subject entries, a
degenerate case the claim wording leaves open), plus experience capped
at 20, plus 10 for a "regular" designation, all forced to -1000 when the
current load reaches the cap. -/
def facultyScoreSpec (course : Course) (faculty : Instructor)
    (courseTags facultySpecializations : List String)
    (currentWorkload maxUnits : Nat) : Int :=
  if currentWorkload ≥ maxUnits then -1000
  else
    (calculateFacultyMatchScore courseTags facultySpecializations : Int) +
    (if (parseJsonArray faculty.previousSubjects).any (fun p =>
        p ≠ "" && (lowerTrim p = lowerTrim course.subjectCode ||
          lowerTrim p = (course.subjectName.map lowerTrim).getD "")) then 50 else 0) +
    (min (faculty.yearsOfExperience.getD 0) 20 : Nat) +
    (if (match faculty.designation with
         | some d => containsSub (lowerStr d) "regular"
         | none => false) then 10 else 0)

/-- The ranking order exactly as claim C4 words it: score descending, then
tag match descending, then years descending, then last name ascending. -/
def candidateOrderSpec (a b : ScoredFaculty) : Prop :=
  b.matchScore < a.matchScore ∨
  (a.matchScore = b.matchScore ∧
    (b.tagMatchPercentage < a.tagMatchPercentage ∨
      (a.tagMatchPercentage = b.tagMatchPercentage ∧
        (b.yearsOfExperience.getD 0 < a.yearsOfExperience.getD 0 ∨
          (a.yearsOfExperience.getD 0 = b.yearsOfExperience.getD 0 ∧
            strCmpInt a.lastname b.lastname ≤ 0)))))

instance : DecidableRel candidateOrderSpec := fun a b => by
  unfold candidateOrderSpec
  infer_instance

/-- candidateOrderSpec lifted to ranked candidates. -/
def candPrecedes (a b : Candidate) : Prop :=
  candidateOrderSpec a.toScoredFaculty b.toScoredFaculty

/-- The scored record with the claim-worded formula. -/
def mkScoredFacultySpec (course : Course) (wl maxMap : List (String × Nat))
    (tags : List String) (i : Instructor) : ScoredFaculty :=
  { i with
    matchScore := facultyScoreSpec course i tags (specListOf i)
      ((wl.lookup i.id).getD 0) (jsOrNat (maxMap.lookup i.id) 18)
    tagMatchPercentage := calculateFacultyMatchScore tags (specListOf i)
    currentWorkload := (wl.lookup i.id).getD 0
    maxUnits := jsOrNat (maxMap.lookup i.id) 18 }

/-- The candidate list exactly as claim C4 words it: score every
instructor with the claim formula, sort by the claim order, rank, keep
only positive score with positive tag match, return the top five. -/
def recommendedCandidatesSpec (course : Course) (instructors : List Instructor)
    (wl maxMap : List (String × Nat)) : List Candidate :=
  let tags := parseJsonArray course.tags
  let ranked := ((List.insertionSort candidateOrderSpec
      (instructors.map (mkScoredFacultySpec course wl maxMap tags))).enum).map
    (fun p => Candidate.mk p.2 (p.1 + 1))
  (ranked.filter (fun f => f.matchScore > 0 && f.tagMatchPercentage > 0)).take 5

/-! ## Proof toolkit: maps, booleans and time facts -/

theorem mapGet_mapSet_self {α : Type} (m : List (String × α)) (k : String)
    (v : α) (d : α) : mapGet (mapSet m k v) k d = v := by
  simp [mapGet, mapSet, List.lookup]

theorem mapGet_mapSet_ne {α : Type} (m : List (String × α)) {k k' : String}
    (v : α) (d : α) (h : k' ≠ k) :
    mapGet (mapSet m k v) k' d = mapGet m k' d := by
  have hb : (k' == k) = false := by
    simp [h]
  simp [mapGet, mapSet, List.lookup, hb]

/-- The numeric content of a passed isValidTimeSlot check. -/
theorem isValidTimeSlot_iff (s e : String) :
    isValidTimeSlot s e = true ↔
      420 ≤ timeToMinutes s ∧ timeToMinutes s < timeToMinutes e ∧
      timeToMinutes e ≤ 1200 ∧
      (timeToMinutes e ≤ 720 ∨ 780 ≤ timeToMinutes s) := by
  have h12 : timeToMinutes "12:00" = 720 := by decide
  have h13 : timeToMinutes "13:00" = 780 := by decide
  have h7 : timeToMinutes "07:00" = 420 := by decide
  have h20 : timeToMinutes "20:00" = 1200 := by decide
  unfold isValidTimeSlot
  simp only [h12, h13, h7, h20, Bool.and_eq_true, Bool.not_eq_true',
    Bool.and_eq_false_iff, decide_eq_true_eq, decide_eq_false_iff_not, ge_iff_le,
    gt_iff_lt, not_lt]
  omega

/-- The per-booking content of a passed isFacultyAvailable check: for every
booked slot of this faculty on a same semester and requested day, the new
interval does not overlap it and keeps a 30-minute break on both sides. -/
theorem isFacultyAvailable_booking (facultyId : String) (days : List String)
    (s e sem : String) (slots : List (String × List Booking))
    (fac : Option Instructor)
    (h : isFacultyAvailable facultyId days s e sem slots fac = true) :
    ∀ b ∈ mapGet slots facultyId [], ∀ d ∈ days, b.semester = sem → b.day = d →
      ¬(timeToMinutes s < timeToMinutes b.endT ∧
        timeToMinutes b.startT < timeToMinutes e) ∧
      (timeToMinutes b.endT ≤ timeToMinutes s →
        timeToMinutes b.endT + 30 ≤ timeToMinutes s) ∧
      (timeToMinutes e ≤ timeToMinutes b.startT →
        timeToMinutes e + 30 ≤ timeToMinutes b.startT) := by
  intro b hb d hd hsem hday
  unfold isFacultyAvailable at h
  rw [Bool.and_eq_true] at h
  have h2 := h.2
  rw [List.all_eq_true] at h2
  have h3 := h2 d hd
  rw [List.all_eq_true] at h3
  have h4 := h3 b hb
  rw [hsem, hday] at h4
  rw [if_pos] at h4
  · simp only [Bool.and_eq_true, Bool.not_eq_true'] at h4
    obtain ⟨⟨hov, hbv1⟩, hbv2⟩ := h4
    unfold timeRangesOverlap at hov
    simp only [Bool.and_eq_false_iff, decide_eq_false_iff_not, not_lt] at hov hbv1 hbv2
    refine ⟨?_, ?_, ?_⟩
    · intro hcon
      rcases hov with h' | h' <;> omega
    · intro hle
      rcases hbv1 with h' | h' <;> omega
    · intro hle
      rcases hbv2 with h' | h' <;> omega
  · simp

theorem lecture_pairs_ne : ∀ pr ∈ LECTURE_DAY_PAIRS, pr.1 ≠ pr.2 := by decide

theorem lab_pairs_ne : ∀ pr ∈ LAB_DAY_PAIRS, pr.1 ≠ pr.2 := by decide

/-- Every day pair the engine can try has two distinct days. -/
theorem dayPairsFor_ne (rule : SessionRule) (st : SchedState) (subjectKey : String) :
    ∀ pr ∈ dayPairsFor rule st subjectKey, pr.1 ≠ pr.2 := by
  intro pr hpr
  unfold dayPairsFor at hpr
  have hmem := List.mem_of_mem_filter hpr
  by_cases hT : rule.type = SessionType.laboratory
  · rw [if_pos hT] at hmem
    exact lab_pairs_ne pr hmem
  · rw [if_neg hT] at hmem
    exact lecture_pairs_ne pr hmem

/-- What a successful paired-placement search guarantees about its result:
the chosen faculty is a recommended candidate, the chosen day pair was
available to try, the time slot passed the validity check, the faculty
availability oracle accepted the interval on both days against the current
bookings, and either the faculty already teaches this subject or its
workload plus the course units stays within its cap. -/
theorem searchPlacement_spec (course : EnrichedCourse) (rule : SessionRule)
    (rooms : List Room) (st : SchedState) (semester : String)
    (instructorMaxUnits : List (String × Nat))
    (dayPairsToTry : List (String × String)) (timeSlots : List TimeSlot)
    (durationMinutes : Nat) (programYearKey : String) (p : Placement)
    (h : searchPlacement course rule rooms st semester instructorMaxUnits
      dayPairsToTry timeSlots durationMinutes programYearKey = some p) :
    p.faculty ∈ course.recommendedFaculty ∧
    (p.day1, p.day2) ∈ dayPairsToTry ∧
    isValidTimeSlot p.startTime p.endTime = true ∧
    isFacultyAvailable p.faculty.id [p.day1, p.day2] p.startTime p.endTime
      semester st.usedSlots (some p.faculty.toInstructor) = true ∧
    (alreadyTeachingB st.scheduledSubjects course.toCourse p.faculty.id semester = true ∨
      mapGet st.facultyWorkload p.faculty.id 0 + course.units ≤
        jsOrNat (instructorMaxUnits.lookup p.faculty.id) 18) := by
  unfold searchPlacement at h
  obtain ⟨faculty, hfmem, hf⟩ := List.exists_of_findSome?_eq_some h
  dsimp only at hf
  split at hf
  · exact absurd hf (by simp)
  · rename_i hguard
    obtain ⟨dayPair, hpmem, hp⟩ := List.exists_of_findSome?_eq_some hf
    split at hp
    · exact absurd hp (by simp)
    · obtain ⟨slot, hsmem, hs⟩ := List.exists_of_findSome?_eq_some hp
      split at hs
      · exact absurd hs (by simp)
      · rename_i hvalid
        split at hs
        · exact absurd hs (by simp)
        · split at hs
          · exact absurd hs (by simp)
          · split at hs
            · exact absurd hs (by simp)
            · split at hs
              · exact absurd hs (by simp)
              · rename_i havail
                rw [Option.map_eq_some'] at hs
                obtain ⟨room, hroomfind, hpe⟩ := hs
                subst hpe
                refine ⟨hfmem, hpmem, ?_, ?_, ?_⟩
                · simpa using hvalid
                · simpa using havail
                · have := hguard
                  rw [Bool.not_eq_true] at this
                  rw [Bool.and_eq_false_iff] at this
                  rcases this with h1 | h2
                  · left
                    simpa using h1
                  · right
                    simp only [decide_eq_false_iff_not, not_lt] at h2
                    exact h2

/-! ## The run invariant -/

theorem facultyDisjoint_symm : ∀ {s1 s2 : Sched},
    facultyDisjoint s1 s2 → facultyDisjoint s2 s1 := by
  intro s1 s2 hR h1 h2 h3
  obtain ⟨a, b, c⟩ := hR h1.symm h2.symm h3.symm
  exact ⟨fun hx => a ⟨hx.2, hx.1⟩, c, b⟩

theorem inv_empty (sem : String) (maxMap : List (String × Nat)) :
    RunInv sem maxMap SchedState.empty := by
  constructor <;> simp [SchedState.empty, mapGet]

/-- Committing a placement that passed the search checks preserves the
invariant. -/
theorem commit_preserves (semester curriculumYear : String)
    (maxMap : List (String × Nat)) (course : EnrichedCourse) (st : SchedState)
    (p : Placement) (rule : SessionRule) (pyk subk : String)
    (hd : p.day1 ≠ p.day2)
    (hv : isValidTimeSlot p.startTime p.endTime = true)
    (hf : isFacultyAvailable p.faculty.id [p.day1, p.day2] p.startTime p.endTime
      semester st.usedSlots (some p.faculty.toInstructor) = true)
    (hw : alreadyTeachingB st.scheduledSubjects course.toCourse p.faculty.id
        semester = true ∨
      mapGet st.facultyWorkload p.faculty.id 0 + course.units ≤
        jsOrNat (maxMap.lookup p.faculty.id) 18)
    (hc : ∀ cand ∈ course.recommendedFaculty, candidateOK cand)
    (h : RunInv semester maxMap st) :
    RunInv semester maxMap
      { (commitPlacement course st semester p pyk subk).2 with
        scheduledSubjects :=
          (commitPlacement course st semester p pyk subk).2.scheduledSubjects ++
            (commitPlacement course st semester p pyk subk).1.map
              (toSched course rule semester curriculumYear) } := by
  have hbook := isFacultyAvailable_booking _ _ _ _ _ _ _ hf
  have hval := (isValidTimeSlot_iff _ _).mp hv
  unfold commitPlacement
  dsimp only
  constructor
  · -- every session carries the run semester
    intro s hs
    rw [List.mem_append] at hs
    rcases hs with hs | hs
    · exact h.semAll s hs
    · simp only [List.map_cons, List.map_nil, List.mem_cons,
        List.not_mem_nil, or_false] at hs
      rcases hs with rfl | rfl <;> rfl
  · -- the booking of every session is tracked in usedSlots
    intro s hs
    rw [List.mem_append] at hs
    rcases hs with hs | hs
    · have hb := h.bookings s hs
      by_cases hid : s.facultyId = p.faculty.id
      · rw [hid, mapGet_mapSet_self]
        rw [hid] at hb
        exact List.mem_append_left _ hb
      · rw [mapGet_mapSet_ne _ _ _ hid]
        exact hb
    · simp only [List.map_cons, List.map_nil, List.mem_cons,
        List.not_mem_nil, or_false] at hs
      rcases hs with rfl | rfl <;>
        · rw [toSched]
          dsimp only
          rw [mapGet_mapSet_self]
          refine List.mem_append_right _ ?_
          simp
  · -- pairwise faculty disjointness
    rw [List.pairwise_append]
    refine ⟨h.disjoint, ?_, ?_⟩
    · simp only [List.map_cons, List.map_nil]
      refine List.Pairwise.cons ?_ (List.Pairwise.cons (by simp) List.Pairwise.nil)
      intro n hn
      simp only [List.mem_cons, List.not_mem_nil, or_false] at hn
      subst hn
      intro _ _ hday
      rw [toSched, toSched] at hday
      exact absurd hday hd
    · intro s hs n hn
      simp only [List.map_cons, List.map_nil, List.mem_cons,
        List.not_mem_nil, or_false] at hn
      have hb := h.bookings s hs
      rcases hn with rfl | rfl
      · intro hfid _ hday
        simp only [toSched] at hfid hday ⊢
        rw [hfid] at hb
        have hfact := hbook ⟨semester, s.day, s.startTime, s.endTime⟩ hb p.day1
          (by simp) rfl (by simpa using hday)
        simp only at hfact
        obtain ⟨a, b, c⟩ := hfact
        refine ⟨fun hx => a ⟨hx.2, hx.1⟩, ?_, ?_⟩ <;> omega
      · intro hfid _ hday
        simp only [toSched] at hfid hday ⊢
        rw [hfid] at hb
        have hfact := hbook ⟨semester, s.day, s.startTime, s.endTime⟩ hb p.day2
          (by simp) rfl (by simpa using hday)
        simp only at hfact
        obtain ⟨a, b, c⟩ := hfact
        refine ⟨fun hx => a ⟨hx.2, hx.1⟩, ?_, ?_⟩ <;> omega
  · -- valid session times
    intro s hs
    rw [List.mem_append] at hs
    rcases hs with hs | hs
    · exact h.valid s hs
    · simp only [List.map_cons, List.map_nil, List.mem_cons,
        List.not_mem_nil, or_false] at hs
      rcases hs with rfl | rfl <;>
        · rw [toSched]
          exact ⟨hval.1, hval.2.1, hval.2.2.1, hval.2.2.2⟩
  · -- workload stays within caps
    intro fid
    by_cases hat : alreadyTeachingB st.scheduledSubjects course.toCourse
        p.faculty.id semester = true
    · rw [if_pos hat]
      exact h.workload fid
    · rw [if_neg hat]
      by_cases hfid : fid = p.faculty.id
      · subst hfid
        rw [mapGet_mapSet_self]
        rcases hw with hw | hw
        · exact absurd hw hat
        · exact hw
      · rw [mapGet_mapSet_ne _ _ _ hfid]
        exact h.workload fid
  · -- recorded candidates are pre-placement candidates
    intro s hs
    rw [List.mem_append] at hs
    rcases hs with hs | hs
    · exact h.recFac s hs
    · simp only [List.map_cons, List.map_nil, List.mem_cons,
        List.not_mem_nil, or_false] at hs
      rcases hs with rfl | rfl <;>
        · rw [toSched]
          exact hc

/-- Processing one session rule preserves the invariant. -/
theorem processRule_inv (semester curriculumYear : String) (rooms : List Room)
    (maxMap : List (String × Nat)) (course : EnrichedCourse) (st : SchedState)
    (rule : SessionRule)
    (hc : ∀ cand ∈ course.recommendedFaculty, candidateOK cand)
    (h : RunInv semester maxMap st) :
    RunInv semester maxMap
      (processRule semester curriculumYear rooms maxMap course st rule) := by
  unfold processRule scheduleSubjectSessions
  dsimp only
  split
  · simpa using h
  · split
    · split
      · rename_i p hsearch
        have hspec := searchPlacement_spec _ _ _ _ _ _ _ _ _ _ _ hsearch
        have hne := dayPairsFor_ne rule st (subjectKeyOf course.toCourse semester)
          (p.day1, p.day2) hspec.2.1
        exact commit_preserves semester curriculumYear maxMap course st p rule
          _ _ hne hspec.2.2.1 hspec.2.2.2.1 hspec.2.2.2.2 hc h
      · simpa using h
    · simpa using h

/-- Processing one course preserves the invariant. -/
theorem processCourse_inv (semester curriculumYear : String) (rooms : List Room)
    (maxMap : List (String × Nat)) (st : SchedState) (course : EnrichedCourse)
    (hc : ∀ cand ∈ course.recommendedFaculty, candidateOK cand)
    (h : RunInv semester maxMap st) :
    RunInv semester maxMap
      (processCourse semester curriculumYear rooms maxMap st course) := by
  unfold processCourse
  dsimp only
  generalize calculateSessionRules course.lec course.lab
    (jsOrStr course.programCode course.programName) = rules
  induction rules generalizing st with
  | nil => simpa using h
  | cons r rs ih =>
    rw [List.foldl_cons]
    exact ih _ (processRule_inv semester curriculumYear rooms maxMap course st r hc h)

/-- Folding the whole course list preserves the invariant. -/
theorem foldCourses_inv (semester curriculumYear : String) (rooms : List Room)
    (maxMap : List (String × Nat)) (courses : List EnrichedCourse) (st : SchedState)
    (hc : ∀ c ∈ courses, ∀ cand ∈ c.recommendedFaculty, candidateOK cand)
    (h : RunInv semester maxMap st) :
    RunInv semester maxMap
      (courses.foldl (processCourse semester curriculumYear rooms maxMap) st) := by
  induction courses generalizing st with
  | nil => simpa using h
  | cons c cs ih =>
    rw [List.foldl_cons]
    exact ih _ (fun c' hc' => hc c' (List.mem_cons_of_mem _ hc'))
      (processCourse_inv semester curriculumYear rooms maxMap st c
        (hc c (List.mem_cons_self _ _)) h)

/-! ## Facts about the candidate lists -/

theorem mkScoredFaculty_toInstructor (course : Course)
    (wl maxMap : List (String × Nat)) (tags : List String) (i : Instructor) :
    (mkScoredFaculty course wl maxMap tags i).toInstructor = i := rfl

theorem mkScoredFaculty_currentWorkload (course : Course)
    (wl maxMap : List (String × Nat)) (tags : List String) (i : Instructor) :
    (mkScoredFaculty course wl maxMap tags i).currentWorkload =
      (wl.lookup i.id).getD 0 := rfl

theorem mkScoredFaculty_maxUnits (course : Course)
    (wl maxMap : List (String × Nat)) (tags : List String) (i : Instructor) :
    (mkScoredFaculty course wl maxMap tags i).maxUnits =
      jsOrNat (maxMap.lookup i.id) 18 := rfl

theorem mkScoredFaculty_matchScore (course : Course)
    (wl maxMap : List (String × Nat)) (tags : List String) (i : Instructor) :
    (mkScoredFaculty course wl maxMap tags i).matchScore =
      calculateEnhancedFacultyScore course i tags (specListOf i)
        ((wl.lookup i.id).getD 0) (jsOrNat (maxMap.lookup i.id) 18) := rfl

theorem mkScoredFaculty_tagMatch (course : Course)
    (wl maxMap : List (String × Nat)) (tags : List String) (i : Instructor) :
    (mkScoredFaculty course wl maxMap tags i).tagMatchPercentage =
      calculateFacultyMatchScore tags (specListOf i) := rfl

/-- Every candidate findBestFacultyMatchesWithRoles returns survived the
positive-score filter and is the scored image of one input instructor,
with the workload and cap read off the two maps at its own id. -/
theorem findBest_candidates (course : Course) (instructors : List Instructor)
    (wl maxMap : List (String × Nat)) (n : Nat) :
    ∀ cand ∈ findBestFacultyMatchesWithRoles course instructors wl maxMap n,
      0 < cand.matchScore ∧ 0 < cand.tagMatchPercentage ∧
      cand.currentWorkload = (wl.lookup cand.id).getD 0 ∧
      cand.maxUnits = jsOrNat (maxMap.lookup cand.id) 18 ∧
      ∃ i ∈ instructors, cand.toScoredFaculty =
        mkScoredFaculty course wl maxMap (parseJsonArray course.tags) i := by
  intro cand hcand
  unfold findBestFacultyMatchesWithRoles at hcand
  dsimp only at hcand
  have h1 := List.mem_of_mem_take hcand
  have hgood := List.of_mem_filter h1
  rw [Bool.and_eq_true, decide_eq_true_eq, decide_eq_true_eq] at hgood
  have h2 := List.mem_of_mem_filter h1
  rw [List.mem_map] at h2
  obtain ⟨pr, hpr, hcand_eq⟩ := h2
  have hsnd : pr.2 ∈ sortByIntCmp facultyCmp
      (instructors.map (mkScoredFaculty course wl maxMap (parseJsonArray course.tags))) := by
    have : pr.2 ∈ (sortByIntCmp facultyCmp
        (instructors.map (mkScoredFaculty course wl maxMap
          (parseJsonArray course.tags)))).enum.map Prod.snd :=
      List.mem_map_of_mem _ hpr
    rwa [List.enum_map_snd] at this
  have hperm : (sortByIntCmp facultyCmp
      (instructors.map (mkScoredFaculty course wl maxMap
        (parseJsonArray course.tags)))).Perm
      (instructors.map (mkScoredFaculty course wl maxMap (parseJsonArray course.tags))) :=
    List.perm_insertionSort _ _
  have hsnd2 := hperm.mem_iff.mp hsnd
  rw [List.mem_map] at hsnd2
  obtain ⟨i, hi, hieq⟩ := hsnd2
  subst hcand_eq
  refine ⟨hgood.1, hgood.2, ?_, ?_, ⟨i, hi, ?_⟩⟩
  · show pr.2.currentWorkload = (wl.lookup pr.2.id).getD 0
    rw [← hieq, mkScoredFaculty_currentWorkload]
    rfl
  · show pr.2.maxUnits = jsOrNat (maxMap.lookup pr.2.id) 18
    rw [← hieq, mkScoredFaculty_maxUnits]
    rfl
  · show pr.2 = mkScoredFaculty course wl maxMap (parseJsonArray course.tags) i
    exact hieq.symm

/-- Candidates attached by the pre-placement enrichment (against the empty
workload map) all carry a zero workload snapshot and a positive score. -/
theorem enrichCourses_candidates (courses : List Course)
    (instructors : List Instructor) (maxMap : List (String × Nat)) :
    ∀ ec ∈ enrichCourses courses instructors [] maxMap,
      ∀ cand ∈ ec.recommendedFaculty, candidateOK cand := by
  intro ec hec cand hcand
  unfold enrichCourses at hec
  rw [List.mem_map] at hec
  obtain ⟨c, _, rfl⟩ := hec
  dsimp only at hcand
  have hfacts := findBest_candidates c instructors [] maxMap 5 cand hcand
  refine ⟨?_, hfacts.1⟩
  rw [hfacts.2.2.1]
  rfl

/-! ## The invariant holds of every generate outcome -/

theorem generate_state_inv (curriculumYear semester : String)
    (program : Option String) (instructors : List Instructor) (rooms : List Room)
    (curriculumCourses : List Course) (totalUnitsConfig : Option Nat) :
    RunInv semester (instructorMaxUnitsMap instructors (jsOrNat totalUnitsConfig 18))
      (stateOf (generateSchedule curriculumYear semester program instructors rooms
        curriculumCourses totalUnitsConfig)) := by
  unfold generateSchedule
  split
  · exact inv_empty _ _
  · dsimp only
    split
    · exact inv_empty _ _
    · rw [stateOf]
      exact foldCourses_inv _ _ _ _ _ _
        (enrichCourses_candidates _ _ _) (inv_empty _ _)

theorem generate_subjects_perm (curriculumYear semester : String)
    (program : Option String) (instructors : List Instructor) (rooms : List Room)
    (curriculumCourses : List Course) (totalUnitsConfig : Option Nat) :
    (subjectsOf (generateSchedule curriculumYear semester program instructors rooms
      curriculumCourses totalUnitsConfig)).Perm
    ((stateOf (generateSchedule curriculumYear semester program instructors rooms
      curriculumCourses totalUnitsConfig)).scheduledSubjects) := by
  unfold generateSchedule
  split
  · simp [subjectsOf, stateOf, SchedState.empty]
  · dsimp only
    split
    · simp [subjectsOf, stateOf, SchedState.empty]
    · rw [subjectsOf, stateOf]
      exact List.perm_insertionSort _ _

/-! ## Concrete fixture inputs used by witnesses and counterexamples -/

/-! ## Claims C1, C2, C6, C9 -/

/-- C1: in every generate output, any two ScheduledSessions with the same
faculty_id, the same semester and the same day have non-overlapping
[start, end) intervals, and whenever one session ends at or before the
other starts, the gap from the earlier end to the later start is at least
30 minutes, symmetrically in both orders. -/
theorem claim_C1 (curriculumYear semester : String) (program : Option String)
    (instructors : List Instructor) (rooms : List Room)
    (curriculumCourses : List Course) (totalUnitsConfig : Option Nat) :
    List.Pairwise facultyDisjoint
      (subjectsOf (generateSchedule curriculumYear semester program instructors
        rooms curriculumCourses totalUnitsConfig)) :=
  ((generate_state_inv curriculumYear semester program instructors rooms
      curriculumCourses totalUnitsConfig).disjoint).perm
    (generate_subjects_perm curriculumYear semester program instructors rooms
      curriculumCourses totalUnitsConfig).symm
    (fun h => facultyDisjoint_symm h)

/-- C2: every ScheduledSession of a generate output satisfies
07:00 ≤ start < end ≤ 20:00 (in minutes: 420 and 1200) and its interval
[start, end) misses the lunch block [12:00, 13:00) (720 to 780): every
candidate slot is re-checked by isValidTimeSlot before placement, so even
slot-table entries that cross lunch are never committed. -/
theorem claim_C2 (curriculumYear semester : String) (program : Option String)
    (instructors : List Instructor) (rooms : List Room)
    (curriculumCourses : List Course) (totalUnitsConfig : Option Nat) :
    ∀ s ∈ subjectsOf (generateSchedule curriculumYear semester program instructors
        rooms curriculumCourses totalUnitsConfig),
      420 ≤ timeToMinutes s.startTime ∧
      timeToMinutes s.startTime < timeToMinutes s.endTime ∧
      timeToMinutes s.endTime ≤ 1200 ∧
      (timeToMinutes s.endTime ≤ 720 ∨ 780 ≤ timeToMinutes s.startTime) :=
  fun s hs =>
    (generate_state_inv curriculumYear semester program instructors rooms
      curriculumCourses totalUnitsConfig).valid s
      ((generate_subjects_perm curriculumYear semester program instructors rooms
        curriculumCourses totalUnitsConfig).mem_iff.mp hs)

theorem claim_C2_witness :
    (subjectsOf exGen).headI ∈ subjectsOf exGen ∧
    (420 ≤ timeToMinutes ((subjectsOf exGen).headI).startTime ∧
     timeToMinutes ((subjectsOf exGen).headI).startTime <
       timeToMinutes ((subjectsOf exGen).headI).endTime ∧
     timeToMinutes ((subjectsOf exGen).headI).endTime ≤ 1200 ∧
     (timeToMinutes ((subjectsOf exGen).headI).endTime ≤ 720 ∨
      780 ≤ timeToMinutes ((subjectsOf exGen).headI).startTime)) :=
  ⟨by decide,
   claim_C2 "2024" "1st Semester" none [exInstructor] [exRoom]
     [exCourseA, exCourseB] (some 18) (subjectsOf exGen).headI (by decide)⟩

/-- C6 (amended): after every generate run, the charged load of each instructor
(the course units the engine adds once per first placement of a
(subject code, semester) pair for that instructor) never exceeds cap(F),
where cap is 6 for CAMPUS_ADMIN and the configured default (default 18)
otherwise.  The sum over all distinct courses assigned to F can exceed
cap(F), because a later course sharing a subject code and semester with an
already-assigned course bypasses both the cap check and the charge
(see the counterexample). -/
theorem claim_C6 (curriculumYear semester : String) (program : Option String)
    (instructors : List Instructor) (rooms : List Room)
    (curriculumCourses : List Course) (totalUnitsConfig : Option Nat)
    (fid : String) :
    mapGet (stateOf (generateSchedule curriculumYear semester program instructors
      rooms curriculumCourses totalUnitsConfig)).facultyWorkload fid 0 ≤
    jsOrNat ((instructorMaxUnitsMap instructors
      (jsOrNat totalUnitsConfig 18)).lookup fid) 18 :=
  (generate_state_inv curriculumYear semester program instructors rooms
    curriculumCourses totalUnitsConfig).workload fid

/-- C6 as stated is false: in the exGen run the one instructor is assigned
both 10-unit courses (they share the subject code CS101, so the second
placement skips the cap check and the charge), and the sum of course.units
over the distinct courses assigned exceeds the 18-unit cap. -/
theorem claim_C6_counterexample :
    ¬(distinctCourseLoad [exCourseA, exCourseB] (subjectsOf exGen) "1" ≤
      jsOrNat ((instructorMaxUnitsMap [exInstructor]
        (jsOrNat (some 18) 18)).lookup "1") 18) := by decide

/-- C9: the recommended-faculty lists are computed before any placement,
against the still-empty workload map, so every candidate of every output
record carries currentWorkload = 0 and a strictly positive score; and with
a zero workload and any positive cap the -1000 disqualification of the scorer
can never fire (the score stays non-negative), so workload caps are
enforced solely by the per-faculty check of the placement loop. -/
theorem claim_C9 :
    (∀ (curriculumYear semester : String) (program : Option String)
       (instructors : List Instructor) (rooms : List Room)
       (curriculumCourses : List Course) (totalUnitsConfig : Option Nat),
      ∀ s ∈ subjectsOf (generateSchedule curriculumYear semester program
          instructors rooms curriculumCourses totalUnitsConfig),
        ∀ cand ∈ s.recommendedFaculty,
          cand.currentWorkload = 0 ∧ 0 < cand.matchScore) ∧
    (∀ (course : Course) (faculty : Instructor) (tags specs : List String)
       (maxUnits : Nat), 0 < maxUnits →
      0 ≤ calculateEnhancedFacultyScore course faculty tags specs 0 maxUnits) := by
  constructor
  · intro curriculumYear semester program instructors rooms curriculumCourses
      totalUnitsConfig s hs cand hcand
    exact (generate_state_inv curriculumYear semester program instructors rooms
      curriculumCourses totalUnitsConfig).recFac s
      ((generate_subjects_perm curriculumYear semester program instructors rooms
        curriculumCourses totalUnitsConfig).mem_iff.mp hs) cand hcand
  · intro course faculty tags specs maxUnits hpos
    unfold calculateEnhancedFacultyScore
    rw [if_neg (by omega)]
    dsimp only
    split <;> split <;> positivity

theorem claim_C9_witness :
    (((subjectsOf exGen).headI.recommendedFaculty.headI.currentWorkload = 0 ∧
      0 < (subjectsOf exGen).headI.recommendedFaculty.headI.matchScore) ∧
     0 ≤ calculateEnhancedFacultyScore exCourseA exInstructor ["Programming"]
       ["Programming"] 0 18) :=
  ⟨claim_C9.1 "2024" "1st Semester" none [exInstructor] [exRoom]
     [exCourseA, exCourseB] (some 18) (subjectsOf exGen).headI (by decide)
     (subjectsOf exGen).headI.recommendedFaculty.headI (by decide),
   claim_C9.2 exCourseA exInstructor ["Programming"] ["Programming"] 18
     (by decide)⟩

/-! ## Claim C8: the single-session branch -/

/-- C8: the claim says a sessions_per_week = 1 rule runs the same
instructor/day/slot/room search over a single day and commits exactly one
session whenever a feasible tuple exists.  Evaluated at a fully feasible
input (a ranked candidate exists, and a valid slot, available faculty and
free room are exhibited), the single-session branch of the engine - a stub in
the source - commits nothing and leaves the state untouched. -/
theorem claim_C8 :
    calculateSessionRules 1 0 (some "BSCS") =
      [⟨SessionType.lecture, 60, 60, 1, 60, 1⟩] ∧
    scheduleSubjectSessions exEnrichedSingle ⟨SessionType.lecture, 60, 60, 1, 60, 1⟩
      [exRoom] SchedState.empty "1st Semester" exMaxMap = ([], SchedState.empty) ∧
    exEnrichedSingle.recommendedFaculty ≠ [] ∧
    isValidTimeSlot "07:00" "08:00" = true ∧
    isFacultyAvailable "1" ["Monday"] "07:00" "08:00" "1st Semester" []
      (some exInstructor) = true ∧
    isRoomAvailable "r1" ["Monday"] "07:00" "08:00" "1st Semester" [] = true := by
  decide

/-! ## Claim C5: the session-rule table -/

/-- C5: calculateSessionRules maps lec_units 3 to one rule of 2 sessions of
1.5h, 2 to 2 x 1h, 1 to 1 x 1h, any other positive n to n x 1h; positive
lab_units emit one rule of 2 lab_units sessions of 1.5h (3 hours per lab
unit) when the department uppercases to BSCS or ACT and lab_units x 1h
otherwise; zero lec or lab units emit no rule; and the returned list keeps
lecture rules before laboratory rules (priorities ascending). -/
theorem claim_C5 (lecUnits labUnits : Nat) (department : Option String) :
    calculateSessionRules lecUnits labUnits department =
      sessionRulesSpec lecUnits labUnits department ∧
    List.Pairwise (fun a b : SessionRule => a.priority ≤ b.priority)
      (calculateSessionRules lecUnits labUnits department) := by
  unfold calculateSessionRules sessionRulesSpec
  dsimp only
  rcases lecUnits with _ | _ | _ | _ | n <;>
    rcases labUnits with _ | m <;>
      by_cases hB : isBSCSorACT department = true <;>
        simp [hB, sortByIntCmp, List.insertionSort, List.orderedInsert]

/-! ## Claim C7: the 1.5-hour slot table -/

/-- C7 as stated is false: 07:30 is a half-hour-aligned start whose
90-minute slot is valid, yet (450, 540) is not an entry of the table (the
table also contains the invalid lunch-crossing entry 11:00-12:30). -/
theorem claim_C7_counterexample :
    ¬(((450 : Nat), (540 : Nat)) ∈ tableMinutes15 ↔
      validSlotMinB 450 540 = true) := by decide

/-- C7 (amended): for every half-hour-aligned start t, the pair
(t, t + 90) is an entry of the 1.5-hour table iff the slot is valid and
t is not 07:30 (a valid slot the table omits), or t is 11:00 (an invalid
lunch-crossing entry the table contains); the table is a fixed list of 20
entries. -/
theorem claim_C7 (t : Nat) (ht : t % 30 = 0) :
    ((t, t + 90) ∈ tableMinutes15 ↔
      ((validSlotMinB t (t + 90) = true ∧ t ≠ 450) ∨ t = 660)) := by
  rcases Nat.lt_or_ge t 1201 with hlt | hge
  · have hex : ∃ k, k < 41 ∧ t = 30 * k := ⟨t / 30, by omega, by omega⟩
    obtain ⟨k, hk, rfl⟩ := hex
    interval_cases k <;> decide
  · constructor
    · intro hmem
      exfalso
      have htab : tableMinutes15 =
        [(420, 510), (480, 570), (510, 600), (540, 630), (570, 660), (600, 690),
         (630, 720), (660, 750), (780, 870), (810, 900), (840, 930), (870, 960),
         (900, 990), (930, 1020), (960, 1050), (990, 1080), (1020, 1110),
         (1050, 1140), (1080, 1170), (1110, 1200)] := by decide
      rw [htab] at hmem
      simp only [List.mem_cons, List.not_mem_nil, or_false, Prod.mk.injEq] at hmem
      omega
    · intro hval
      exfalso
      rcases hval with ⟨hv, _⟩ | h660
      · unfold validSlotMinB at hv
        simp only [Bool.and_eq_true, decide_eq_true_eq] at hv
        omega
      · omega

theorem claim_C7_witness :
    (480 : Nat) % 30 = 0 ∧
    (((480 : Nat), (570 : Nat)) ∈ tableMinutes15 ↔
      ((validSlotMinB 480 570 = true ∧ (480 : Nat) ≠ 450) ∨ (480 : Nat) = 660)) :=
  ⟨by decide, claim_C7 480 (by decide)⟩

/-! ## Claims C3 and C10: the save endpoint -/

/-- C3 as stated is false: save is not one transactional unit.  When the
insert step faults after the delete step succeeded, the resulting store is
neither the unchanged original nor the full replacement - the matching
rows are already gone and nothing was inserted (an incomplete write). -/
theorem claim_C3_counterexample :
    (saveLatestSchedule [exItemA] [exRowOld] true false).2 ≠ [exRowOld] ∧
    (saveLatestSchedule [exItemA] [exRowOld] true false).2 ≠
      (saveLatestSchedule [exItemA] [exRowOld] true true).2 := by decide

/-- C3 (amended): for every save call with a non-empty session list whose
first session yields a curriculum year, the call deletes exactly the
persisted rows whose (academic year, semester) equal the key derived from
the first session and then inserts the given items in one batch: on
success a row is in the final store iff it is a surviving old row or an
inserted one; but the delete and the insert are two separate store
operations, not a transaction, so if the insert faults the outcome is a
server error with the deletion already applied (an incomplete write). -/
theorem claim_C3 (subjects : List SaveItem) (store : List Row)
    (first : SaveItem) (rest : List SaveItem) (year : String)
    (hsub : subjects = first :: rest)
    (hyear : jsOrStr first.curriculumYear first.academicYear = some year)
    (hne : year ≠ "") :
    ((saveLatestSchedule subjects store true true).1 =
      SaveOutcome.okSave
        (store.length -
          (store.filter (fun r => !(saveDeleteMatches year first.semester r))).length)
        subjects.length ∧
     (∀ r : Row, r ∈ (saveLatestSchedule subjects store true true).2 ↔
        ((r ∈ store ∧ saveDeleteMatches year first.semester r = false) ∨
         r ∈ subjects.map toRow))) ∧
    ((saveLatestSchedule subjects store true false).1 = SaveOutcome.serverError ∧
     (saveLatestSchedule subjects store true false).2 =
       store.filter (fun r => !(saveDeleteMatches year first.semester r))) := by
  subst hsub
  unfold saveLatestSchedule
  dsimp only
  rw [hyear]
  have hif : (year = "") = False := by
    simp [hne]
  simp [hif, List.mem_filter]

theorem claim_C3_witness :
    ((saveLatestSchedule [exItemA] [exRowOld, exRowOtherYear] true true).1 =
      SaveOutcome.okSave
        ([exRowOld, exRowOtherYear].length -
          ([exRowOld, exRowOtherYear].filter
            (fun r => !(saveDeleteMatches "2024" exItemA.semester r))).length)
        [exItemA].length ∧
     (∀ r : Row,
        r ∈ (saveLatestSchedule [exItemA] [exRowOld, exRowOtherYear] true true).2 ↔
        ((r ∈ [exRowOld, exRowOtherYear] ∧
          saveDeleteMatches "2024" exItemA.semester r = false) ∨
         r ∈ [exItemA].map toRow))) ∧
    ((saveLatestSchedule [exItemA] [exRowOld, exRowOtherYear] true false).1 =
      SaveOutcome.serverError ∧
     (saveLatestSchedule [exItemA] [exRowOld, exRowOtherYear] true false).2 =
       [exRowOld, exRowOtherYear].filter
         (fun r => !(saveDeleteMatches "2024" exItemA.semester r))) :=
  claim_C3 [exItemA] [exRowOld, exRowOtherYear] exItemA [] "2024" rfl
    (by decide) (by decide)

/-- C10: a save whose first session carries a curriculum (or academic)
year but no semester field is not rejected: only the year is validated,
the semester condition of the delete filter is dropped, and every persisted
row of that academic year - across all semesters - is deleted before the
new sessions are inserted. -/
theorem claim_C10 (subjects : List SaveItem) (store : List Row)
    (first : SaveItem) (rest : List SaveItem) (year : String)
    (hsub : subjects = first :: rest)
    (hsem : first.semester = none)
    (hyear : jsOrStr first.curriculumYear first.academicYear = some year)
    (hne : year ≠ "") :
    (saveLatestSchedule subjects store true true).1 ≠ SaveOutcome.badRequest ∧
    (saveLatestSchedule subjects store true true).2 =
      store.filter (fun r => !(r.academicYear = year)) ++ subjects.map toRow := by
  subst hsub
  unfold saveLatestSchedule
  dsimp only
  rw [hyear]
  have hif : (year = "") = False := by
    simp [hne]
  have hmatch : ∀ r : Row, saveDeleteMatches year first.semester r =
      decide (r.academicYear = year) := by
    intro r
    rw [saveDeleteMatches.eq_def, hsem]
    simp
  simp [hif, hmatch]

/-- An item with a year but no semester over a store holding rows of two
semesters of that year plus one other year: both same-year rows are
deleted, whatever their semester. -/
theorem claim_C10_witness :
    (saveLatestSchedule [{ exItemA with semester := none }]
        [exRowOld, exRowOtherSem, exRowOtherYear] true true).1 ≠
      SaveOutcome.badRequest ∧
    (saveLatestSchedule [{ exItemA with semester := none }]
        [exRowOld, exRowOtherSem, exRowOtherYear] true true).2 =
      [exRowOld, exRowOtherSem, exRowOtherYear].filter
          (fun r => !(r.academicYear = "2024")) ++
        [{ exItemA with semester := none }].map toRow :=
  claim_C10 [{ exItemA with semester := none }]
    [exRowOld, exRowOtherSem, exRowOtherYear] { exItemA with semester := none }
    [] "2024" rfl (by decide) (by decide) (by decide)

/-! ## Claim C4: the candidate list -/

theorem score_eq_spec (course : Course) (faculty : Instructor)
    (courseTags facultySpecializations : List String)
    (currentWorkload maxUnits : Nat) :
    calculateEnhancedFacultyScore course faculty courseTags
      facultySpecializations currentWorkload maxUnits =
    facultyScoreSpec course faculty courseTags facultySpecializations
      currentWorkload maxUnits := by
  unfold calculateEnhancedFacultyScore facultyScoreSpec
  dsimp only
  have hany : ((parseJsonArray faculty.previousSubjects).any (fun prevSubj =>
      if prevSubj = "" then false
      else
        decide (lowerTrim prevSubj = lowerTrim course.subjectCode) ||
        decide (lowerTrim prevSubj = (course.subjectName.map lowerTrim).getD ""))) =
      ((parseJsonArray faculty.previousSubjects).any (fun p =>
        p ≠ "" && (decide (lowerTrim p = lowerTrim course.subjectCode) ||
          decide (lowerTrim p = (course.subjectName.map lowerTrim).getD "")))) := by
    congr 1
    funext p
    by_cases hp : p = "" <;> simp [hp]
  have hreg : (match faculty.designation with
      | some d => d ≠ "" && containsSub (lowerStr d) "regular"
      | none => false) =
      (match faculty.designation with
       | some d => containsSub (lowerStr d) "regular"
       | none => false) := by
    match faculty.designation with
    | none => rfl
    | some d =>
      by_cases hd : d = ""
      · subst hd
        decide
      · simp [hd]
  rw [hany, hreg]
  by_cases hw : currentWorkload ≥ maxUnits
  · rw [if_pos hw, if_pos hw]
  · rw [if_neg hw, if_neg hw]
    split <;> split <;> ring

theorem charListCmp_le_total : ∀ a b : List Char,
    charListCmp a b ≤ 0 ∨ charListCmp b a ≤ 0
  | [], [] => by simp [charListCmp]
  | [], _ :: _ => by simp [charListCmp]
  | _ :: _, [] => by simp [charListCmp]
  | x :: xs, y :: ys => by
    unfold charListCmp
    by_cases h1 : x.toNat < y.toNat
    · left
      simp [h1]
    · by_cases h2 : y.toNat < x.toNat
      · right
        simp [h1, h2]
      · simpa [h1, h2] using charListCmp_le_total xs ys

theorem charListCmp_le_trans : ∀ a b c : List Char,
    charListCmp a b ≤ 0 → charListCmp b c ≤ 0 → charListCmp a c ≤ 0
  | [], b, c => by
    intro _ _
    cases c <;> simp [charListCmp]
  | x :: xs, [], c => by
    intro h _
    simp [charListCmp] at h
  | x :: xs, y :: ys, [] => by
    intro _ h
    simp [charListCmp] at h
  | x :: xs, y :: ys, z :: zs => by
    intro h1 h2
    unfold charListCmp at h1 h2 ⊢
    by_cases hxy : x.toNat < y.toNat
    · rw [if_pos hxy] at h1
      by_cases hyz : y.toNat < z.toNat
      · rw [if_pos (show x.toNat < z.toNat by omega)]
        norm_num
      · rw [if_neg hyz] at h2
        by_cases hzy : z.toNat < y.toNat
        · rw [if_pos hzy] at h2
          exact absurd h2 (by norm_num)
        · rw [if_pos (show x.toNat < z.toNat by omega)]
          norm_num
    · rw [if_neg hxy] at h1
      by_cases hyx : y.toNat < x.toNat
      · rw [if_pos hyx] at h1
        exact absurd h1 (by norm_num)
      · rw [if_neg hyx] at h1
        by_cases hyz : y.toNat < z.toNat
        · rw [if_pos (show x.toNat < z.toNat by omega)]
          norm_num
        · rw [if_neg hyz] at h2
          by_cases hzy : z.toNat < y.toNat
          · rw [if_pos hzy] at h2
            exact absurd h2 (by norm_num)
          · rw [if_neg hzy] at h2
            rw [if_neg (show ¬x.toNat < z.toNat by omega),
              if_neg (show ¬z.toNat < x.toNat by omega)]
            exact charListCmp_le_trans xs ys zs h1 h2

theorem candidateOrderSpec_total (a b : ScoredFaculty) :
    candidateOrderSpec a b ∨ candidateOrderSpec b a := by
  unfold candidateOrderSpec
  rcases lt_trichotomy a.matchScore b.matchScore with h | h | h
  · right
    left
    exact h
  · rcases lt_trichotomy a.tagMatchPercentage b.tagMatchPercentage with h2 | h2 | h2
    · right
      right
      exact ⟨h.symm, Or.inl h2⟩
    · rcases lt_trichotomy (a.yearsOfExperience.getD 0) (b.yearsOfExperience.getD 0)
        with h3 | h3 | h3
      · right
        right
        exact ⟨h.symm, Or.inr ⟨h2.symm, Or.inl h3⟩⟩
      · rcases charListCmp_le_total a.lastname.data b.lastname.data with h4 | h4
        · left
          right
          exact ⟨h, Or.inr ⟨h2, Or.inr ⟨h3, h4⟩⟩⟩
        · right
          right
          exact ⟨h.symm, Or.inr ⟨h2.symm, Or.inr ⟨h3.symm, h4⟩⟩⟩
      · left
        right
        exact ⟨h, Or.inr ⟨h2, Or.inl h3⟩⟩
    · left
      right
      exact ⟨h, Or.inl h2⟩
  · left
    left
    exact h

theorem candidateOrderSpec_trans (a b c : ScoredFaculty)
    (hab : candidateOrderSpec a b) (hbc : candidateOrderSpec b c) :
    candidateOrderSpec a c := by
  unfold candidateOrderSpec at hab hbc ⊢
  rcases hab with h1 | ⟨e1, hab⟩
  · rcases hbc with h2 | ⟨e2, _⟩
    · exact Or.inl (h2.trans h1)
    · exact Or.inl (e2 ▸ h1)
  · rcases hbc with h2 | ⟨e2, hbc⟩
    · exact Or.inl (by rw [e1]; exact h2)
    · refine Or.inr ⟨e1.trans e2, ?_⟩
      rcases hab with h3 | ⟨f1, hab⟩
      · rcases hbc with h4 | ⟨f2, _⟩
        · exact Or.inl (h4.trans h3)
        · exact Or.inl (f2 ▸ h3)
      · rcases hbc with h4 | ⟨f2, hbc⟩
        · exact Or.inl (by rw [f1]; exact h4)
        · refine Or.inr ⟨f1.trans f2, ?_⟩
          rcases hab with h5 | ⟨g1, hab⟩
          · rcases hbc with h6 | ⟨g2, _⟩
            · exact Or.inl (h6.trans h5)
            · exact Or.inl (g2 ▸ h5)
          · rcases hbc with h6 | ⟨g2, hbc⟩
            · exact Or.inl (by rw [g1]; exact h6)
            · exact Or.inr ⟨g1.trans g2,
                charListCmp_le_trans a.lastname.data b.lastname.data
                  c.lastname.data hab hbc⟩

/-- The subtraction comparator of the source accepts (a before b) exactly
when the lexicographic order of the claim does. -/
theorem facultyCmp_le_iff (a b : ScoredFaculty) :
    facultyCmp a b ≤ 0 ↔ candidateOrderSpec a b := by
  unfold facultyCmp candidateOrderSpec
  by_cases h1 : a.matchScore = b.matchScore
  · rw [if_neg (by simpa using h1)]
    by_cases h2 : a.tagMatchPercentage = b.tagMatchPercentage
    · rw [if_neg (by simpa using h2)]
      dsimp only
      by_cases h3 : b.yearsOfExperience.getD 0 = a.yearsOfExperience.getD 0
      · rw [if_neg (by simpa using h3)]
        constructor
        · intro h4
          exact Or.inr ⟨h1, Or.inr ⟨h2, Or.inr ⟨h3.symm, h4⟩⟩⟩
        · intro h4
          rcases h4 with h4 | ⟨_, h4⟩
          · omega
          · rcases h4 with h4 | ⟨_, h4⟩
            · omega
            · rcases h4 with h4 | ⟨_, h4⟩
              · omega
              · exact h4
      · rw [if_pos h3]
        constructor
        · intro h4
          exact Or.inr ⟨h1, Or.inr ⟨h2, Or.inl (by omega)⟩⟩
        · intro h4
          rcases h4 with h4 | ⟨_, h4⟩
          · omega
          · rcases h4 with h4 | ⟨_, h4⟩
            · omega
            · rcases h4 with h4 | ⟨h4, _⟩
              · omega
              · omega
    · rw [if_pos h2]
      constructor
      · intro h4
        exact Or.inr ⟨h1, Or.inl (by omega)⟩
      · intro h4
        rcases h4 with h4 | ⟨_, h4⟩
        · omega
        · rcases h4 with h4 | ⟨h4, _⟩
          · omega
          · omega
  · rw [if_pos h1]
    constructor
    · intro h4
      exact Or.inl (by omega)
    · intro h4
      rcases h4 with h4 | ⟨h4, _⟩
      · omega
      · omega

theorem orderedInsert_congr {α : Type} (r1 r2 : α → α → Prop) [DecidableRel r1]
    [DecidableRel r2] (h : ∀ x y, r1 x y ↔ r2 x y) (a : α) :
    ∀ l : List α, List.orderedInsert r1 a l = List.orderedInsert r2 a l
  | [] => rfl
  | b :: l => by
    rw [List.orderedInsert, List.orderedInsert]
    by_cases hr : r1 a b
    · rw [if_pos hr, if_pos ((h a b).mp hr)]
    · rw [if_neg hr, if_neg (fun hc => hr ((h a b).mpr hc)),
        orderedInsert_congr r1 r2 h a l]

theorem insertionSort_congr {α : Type} (r1 r2 : α → α → Prop) [DecidableRel r1]
    [DecidableRel r2] (h : ∀ x y, r1 x y ↔ r2 x y) :
    ∀ l : List α, List.insertionSort r1 l = List.insertionSort r2 l
  | [] => rfl
  | a :: l => by
    rw [List.insertionSort, List.insertionSort, insertionSort_congr r1 r2 h l,
      orderedInsert_congr r1 r2 h a (List.insertionSort r2 l)]

theorem mkScored_eq_spec (course : Course) (wl maxMap : List (String × Nat))
    (tags : List String) (i : Instructor) :
    mkScoredFaculty course wl maxMap tags i =
      mkScoredFacultySpec course wl maxMap tags i := by
  unfold mkScoredFaculty mkScoredFacultySpec
  dsimp only
  rw [score_eq_spec]

/-- The rank-filter-take pipeline over any comparator-sorted list is
sorted in the claim order. -/
theorem sorted_rankedPipeline (l : List ScoredFaculty) (n : Nat)
    (pred : Candidate → Bool) :
    List.Sorted candPrecedes
      ((((sortByIntCmp facultyCmp l).enum.map
        (fun p => Candidate.mk p.2 (p.1 + 1))).filter pred).take n) := by
  apply List.Pairwise.sublist (List.take_sublist _ _)
  apply List.Pairwise.sublist (List.filter_sublist _)
  rw [List.pairwise_map]
  have hs : List.Sorted candidateOrderSpec (sortByIntCmp facultyCmp l) := by
    rw [show sortByIntCmp facultyCmp l = List.insertionSort candidateOrderSpec l
      from insertionSort_congr _ _ facultyCmp_le_iff l]
    haveI : IsTotal ScoredFaculty candidateOrderSpec := ⟨candidateOrderSpec_total⟩
    haveI : IsTrans ScoredFaculty candidateOrderSpec :=
      ⟨fun a b c => candidateOrderSpec_trans a b c⟩
    exact List.sorted_insertionSort _ _
  have hp : List.Pairwise (fun p q : Nat × ScoredFaculty =>
      candidateOrderSpec p.2 q.2) (sortByIntCmp facultyCmp l).enum := by
    rw [show sortByIntCmp facultyCmp l =
        ((sortByIntCmp facultyCmp l).enum.map Prod.snd)
      from (List.enum_map_snd _).symm] at hs
    exact (List.pairwise_map).mp hs
  exact hp

/-- C4: for every course, the candidate list is obtained by scoring each
instructor as tag_match, plus 50 for a previous-subjects match on the
subject code or name (case-insensitive), plus experience capped at 20,
plus 10 for a "regular" designation, forced to -1000 at or over the cap;
sorting by score desc, tag match desc, years desc, last name asc; keeping
only candidates with score > 0 and tag match > 0; and returning at most
the top five - and the returned list is sorted in that order. -/
theorem claim_C4 (course : Course) (instructors : List Instructor)
    (wl maxMap : List (String × Nat)) :
    findBestFacultyMatchesWithRoles course instructors wl maxMap 5 =
      recommendedCandidatesSpec course instructors wl maxMap ∧
    List.Sorted candPrecedes
      (findBestFacultyMatchesWithRoles course instructors wl maxMap 5) := by
  constructor
  · unfold findBestFacultyMatchesWithRoles recommendedCandidatesSpec
    dsimp only
    rw [show mkScoredFaculty course wl maxMap (parseJsonArray course.tags) =
        mkScoredFacultySpec course wl maxMap (parseJsonArray course.tags)
      from funext (mkScored_eq_spec course wl maxMap (parseJsonArray course.tags)),
      show sortByIntCmp facultyCmp
          (instructors.map (mkScoredFacultySpec course wl maxMap (parseJsonArray course.tags))) =
        List.insertionSort candidateOrderSpec
          (instructors.map (mkScoredFacultySpec course wl maxMap (parseJsonArray course.tags)))
      from insertionSort_congr _ _ facultyCmp_le_iff _]
  · exact sorted_rankedPipeline _ 5 _
